import Mathlib

/-!
Verification of the `neural_network_lib` network simulation engine.

This file shallowly embeds the engine's data model and operations in Lean:
Python dicts become association lists, Python floats become exact rationals
(`ℚ`), wall-clock time becomes an explicit `now : ℚ` argument, randomness
becomes an explicit oracle, and Python exceptions become `Option`/`Except`
results.  Each definition mirrors the corresponding Python function from
`core/connection.py`, `core/neuron.py`, `core/network.py`,
`learning/hebbian.py`, `utils/neurogenesis.py` and `utils/backprop.py`.
-/

set_option maxHeartbeats 1600000

namespace NNLib

/-! ## Python dict primitives

A Python `dict` is modelled as a `List (key × value)` in insertion order with
unique keys.  `alookup` is `dict.get` (first match), `pyDictSet` is
`d[k] = v`: it replaces the value in place when the key is present and
appends a fresh binding otherwise. -/

def alookup {α β : Type} [DecidableEq α] (k : α) : List (α × β) → Option β
  | [] => none
  | p :: tl => if p.1 = k then some p.2 else alookup k tl

def pyDictSet {α β : Type} [DecidableEq α] (d : List (α × β)) (k : α) (v : β) :
    List (α × β) :=
  if (alookup k d).isSome then d.map (fun p => if p.1 = k then (k, v) else p)
  else d ++ [(k, v)]

/-- A Python `for` loop threading mutable state, where the body may raise:
fold with early `none` exit. -/
def optFold {σ α : Type} (f : σ → α → Option σ) : σ → List α → Option σ
  | s, [] => some s
  | s, a :: tl =>
    match f s a with
    | none => none
    | some s => optFold f s tl

/-- Like `optFold` for bodies raising typed errors. -/
def exFold {ε σ α : Type} (f : σ → α → Except ε σ) : σ → List α → Except ε σ
  | s, [] => .ok s
  | s, a :: tl =>
    match f s a with
    | .error e => .error e
    | .ok s => exFold f s tl

/-- A Python list comprehension whose body may raise. -/
def exMapM {ε α β : Type} (f : α → Except ε β) : List α → Except ε (List β)
  | [] => .ok []
  | a :: tl =>
    match f a with
    | .error e => .error e
    | .ok b =>
      match exMapM f tl with
      | .error e => .error e
      | .ok bs => .ok (b :: bs)

/-! ## State values

A neuron's state entry can be a Python number, boolean or string (anything
else behaves as the final `return 0.0` fallback in `get_neuron_value`). -/

inductive Value where
  | num : ℚ → Value
  | bool : Bool → Value
  | str : String → Value
  | null : Value
deriving DecidableEq

abbrev StateMap : Type := List (String × Value)

/-- `isinstance(value, (int, float))`.  In Python `bool` is a subclass of
`int`, so this test is also true for booleans. -/
def isinstance_int_float : Value → Bool
  | .num _ => true
  | .bool _ => true
  | _ => false

/-- Python `float(value)` on an int/float/bool (`float(True) = 1.0`). -/
def pyFloat : Value → ℚ
  | .num q => q
  | .bool b => if b then 1 else 0
  | _ => 0

/-- `Network.get_neuron_value` (core/network.py): `value = state.get(name, 0)`
followed by the isinstance dispatch.  The `elif isinstance(value, bool)`
branch of the source is preserved below, but it is unreachable because the
`isinstance(value, (int, float))` test already catches booleans. -/
def get_neuron_value (state : StateMap) (name : String) : ℚ :=
  let value := (alookup name state).getD (Value.num 0)
  if isinstance_int_float value then pyFloat value
  else
    match value with
    | .bool b => if b then 100 else 0
    | .str _ => 75
    | _ => 0

/-! ## Connection (core/connection.py) -/

/-- Python `min(a, b)` (first argument on ties). -/
def pyMin (a b : ℚ) : ℚ := if a ≤ b then a else b

/-- Python `max(a, b)` (first argument on ties). -/
def pyMax (a b : ℚ) : ℚ := if b ≤ a then a else b

/-- `max(-1.0, min(1.0, weight))` from `Connection.set_weight`. -/
def clampWeight (w : ℚ) : ℚ := pyMax (-1) (pyMin 1 w)

structure Connection where
  source : String
  target : String
  weight : ℚ
  last_update : ℚ
  creation_time : ℚ
  weight_history : List (ℚ × ℚ)
  bidirectional : Bool
deriving DecidableEq

/-- `Connection.set_weight`: clamp, stamp `last_update`, append to
`weight_history` and trim the history to its last 100 entries. -/
def Connection.set_weight (c : Connection) (now weight : ℚ) : Connection :=
  let w := clampWeight weight
  let hist := c.weight_history ++ [(now, w)]
  { c with
    weight := w
    last_update := now
    weight_history := if 100 < hist.length then hist.drop (hist.length - 100) else hist }

/-- `Connection.__init__`: fields are zero-initialised and then the initial
weight is routed through `set_weight`. -/
def Connection.init (source target : String) (weight : ℚ) (bidirectional : Bool)
    (now : ℚ) : Connection :=
  Connection.set_weight
    { source := source, target := target, weight := 0, last_update := now,
      creation_time := now, weight_history := [], bidirectional := bidirectional }
    now weight

/-- `Connection.apply_decay`: `set_weight(weight * (1 - decay_factor))`. -/
def Connection.apply_decay (c : Connection) (now decay_factor : ℚ) : Connection :=
  Connection.set_weight c now (c.weight * (1 - decay_factor))

/-! ## Neuron (core/neuron.py) -/

structure Neuron where
  name : String
  position : ℚ × ℚ
  type : String
  attributes : List (String × Value)
  activity_history : List ℚ
deriving DecidableEq

/-- `Neuron.__init__` (`position or (0, 0)` becomes `getD`). -/
def Neuron.init (name : String) (position : Option (ℚ × ℚ)) (neuron_type : String)
    (attributes : List (String × Value)) : Neuron :=
  { name := name, position := position.getD (0, 0), type := neuron_type,
    attributes := attributes, activity_history := [] }

/-- `Neuron.record_activity`: append, then `pop(0)` once if over capacity. -/
def Neuron.record_activity (n : Neuron) (value : ℚ) (max_history : Nat := 10) : Neuron :=
  let h := n.activity_history ++ [value]
  { n with activity_history := if max_history < h.length then h.drop 1 else h }

/-! ## Config (core/config.py) -/

structure Config where
  hebbian : List (String × ℚ)
  neurogenesis : List (String × ℚ)
  combined : List (String × ℚ)
deriving DecidableEq

/-- `Config.__init__` defaults. -/
def Config.default : Config :=
  { hebbian :=
      [("base_learning_rate", 1/10), ("threshold", 7/10), ("weight_decay", 1/100),
       ("max_weight", 1), ("min_weight", -1), ("learning_interval", 30000),
       ("active_threshold", 50)],
    neurogenesis :=
      [("novelty_threshold", 3), ("stress_threshold", 7/10), ("reward_threshold", 6/10),
       ("cooldown", 300), ("decay_rate", 95/100), ("new_neuron_connection_strength", 3/10),
       ("highlight_duration", 5)],
    combined :=
      [("neurogenesis_learning_boost", 3/2), ("goal_reinforcement_factor", 2)] }

/-- Python `dict.get(key, default)` on a config section. -/
def cfgGet (d : List (String × ℚ)) (k : String) (dflt : ℚ) : ℚ :=
  (alookup k d).getD dflt

/-! ## Learning-component state

`HebbianLearning` and `Neurogenesis` hold a back reference to the network in
Python; here their mutable fields live in their own structures and every
method takes the `Network` explicitly. -/

structure LearningEvent where
  timestamp : ℚ
  neuron1 : String
  neuron2 : String
  value1 : ℚ
  value2 : ℚ
  prev_weight_forward : ℚ
  new_weight_forward : ℚ
  prev_weight_backward : ℚ
  new_weight_backward : ℚ
  learning_rate : ℚ
deriving DecidableEq

structure HebbianState where
  last_learning_time : ℚ
  learning_events : List LearningEvent
  excluded_neurons : List String
  learning_rate : ℚ
deriving DecidableEq

/-- `HebbianLearning.__init__`: the debounce clock starts at construction
time and the learning rate comes from `config.hebbian`. -/
def HebbianState.init (config : Config) (now : ℚ) : HebbianState :=
  { last_learning_time := now, learning_events := [], excluded_neurons := [],
    learning_rate := cfgGet config.hebbian "base_learning_rate" (1/10) }

structure NeurogenesisState where
  novelty_counter : ℚ
  stress_counter : ℚ
  reward_counter : ℚ
  new_neurons : List String
  last_neuron_time : ℚ
deriving DecidableEq

/-- `Neurogenesis.__init__`. -/
def NeurogenesisState.init (now : ℚ) : NeurogenesisState :=
  { novelty_counter := 0, stress_counter := 0, reward_counter := 0,
    new_neurons := [], last_neuron_time := now }

/-- Oracle for the `random` module and the transcendental functions used by
neurogenesis positioning.  The engine's claims never depend on the values
these produce, so they are arbitrary uninterpreted functions. -/
structure RandomOracle where
  uniform : ℚ → ℚ → ℚ
  cosQ : ℚ → ℚ
  sinQ : ℚ → ℚ
  piQ : ℚ
  sample : List (Nat × Nat) → Nat → List (Nat × Nat)

/-! ## Network (core/network.py) -/

structure Network where
  config : Config
  neurons : List (String × Neuron)
  connections : List ((String × String) × Connection)
  state : StateMap
  creation_time : ℚ
  last_update_time : ℚ
  update_count : Nat
  excluded_neurons : List String
  learning : Option HebbianState
  neurogenesis : Option NeurogenesisState
deriving DecidableEq

/-- `Network.__init__`. -/
def Network.init (config : Config) (now : ℚ) : Network :=
  { config := config, neurons := [], connections := [], state := [],
    creation_time := now, last_update_time := now, update_count := 0,
    excluded_neurons := [], learning := none, neurogenesis := none }

/-- `Network.add_neuron`: `none` models the `ValueError` raised on a
duplicate name; otherwise the neuron is stored and its state seeded. -/
def add_neuron (net : Network) (name : String) (initial_state : Value)
    (position : Option (ℚ × ℚ)) (neuron_type : String)
    (attributes : List (String × Value)) : Option Network :=
  if (alookup name net.neurons).isSome then none
  else
    some { net with
      neurons := net.neurons ++ [(name, Neuron.init name position neuron_type attributes)],
      state := pyDictSet net.state name initial_state }

/-- `Network.connect`: `none` models the `ValueError` raised when either
endpoint is missing.  The reverse edge is only added when `bidirectional`
holds and no `(target, source)` connection exists after the forward insert. -/
def connect (net : Network) (source target : String) (weight : ℚ)
    (bidirectional : Bool) (now : ℚ) : Option Network :=
  if (alookup source net.neurons).isNone then none
  else if (alookup target net.neurons).isNone then none
  else
    let conns := pyDictSet net.connections (source, target)
      (Connection.init source target weight bidirectional now)
    let conns :=
      if bidirectional && (alookup (target, source) conns).isNone then
        pyDictSet conns (target, source) (Connection.init target source weight true now)
      else conns
    some { net with connections := conns }

/-- The inner accumulation of `Network.propagate_activation`: summed weighted
input and incoming-connection count for one target, read from the pre-step
network. -/
def incomingFor (net : Network) (target : String) : ℚ × Nat :=
  (net.neurons.map Prod.fst).foldl
    (fun acc source =>
      match alookup (source, target) net.connections with
      | some connection => (acc.1 + get_neuron_value net.state source * connection.weight, acc.2 + 1)
      | none => acc)
    (0, 0)

/-- The value written for a target with at least one incoming connection:
`max(0, min(100, current * 0.7 + (incoming / count) * 0.3))`. -/
def propagate_target_value (net : Network) (target : String) : ℚ :=
  pyMax 0 (pyMin 100 (get_neuron_value net.state target * (7/10) +
    ((incomingFor net target).1 / ((incomingFor net target).2 : ℚ)) * (3/10)))

/-- One step of `Network.propagate_activation`: a fresh copy of the state is
updated per target while every read goes through the pre-step `net`. -/
def propagate_step (net : Network) : StateMap :=
  (net.neurons.map Prod.fst).foldl
    (fun new_state target =>
      if 0 < (incomingFor net target).2 then
        pyDictSet new_state target (Value.num (propagate_target_value net target))
      else new_state)
    net.state

/-- `Network.propagate_activation(steps)`. -/
def Network.propagate_activation (net : Network) : Nat → Network
  | 0 => net
  | n + 1 => Network.propagate_activation { net with state := propagate_step net } n

/-- `Network.apply_weight_decay`: decay every connection, count those whose
weight moved by more than `0.0001`. -/
def apply_weight_decay (net : Network) (now : ℚ) : Network × Nat :=
  let decay_factor := cfgGet net.config.hebbian "weight_decay" (1/100)
  let newConns := net.connections.map (fun p => (p.1, Connection.apply_decay p.2 now decay_factor))
  let count := ((net.connections.zip newConns).filter
    (fun pq => if (1/10000 : ℚ) < |pq.2.2.weight - pq.1.2.weight| then true else false)).length
  ({ net with connections := newConns }, count)

/-! ## HebbianLearning (learning/hebbian.py) -/

/-- `HebbianLearning.modify_learning_rate`: `base_rate * factor`. -/
def modify_learning_rate (hl : HebbianState) (config : Config) (factor : ℚ) : HebbianState :=
  { hl with learning_rate := cfgGet config.hebbian "base_learning_rate" (1/10) * factor }

/-- `HebbianLearning._update_connection`: ensure both directed edges exist
(created through `connect`, which can fail if an active state key has no
neuron — the Python `ValueError`), then add the same increment to each
weight through `set_weight` and log the event (log capped at 100). -/
def _update_connection (net : Network) (hl : HebbianState) (now : ℚ)
    (neuron1 neuron2 : String) (value1 value2 : ℚ) :
    Option (Network × HebbianState) :=
  let step1 :=
    if (alookup (neuron1, neuron2) net.connections).isNone then
      connect net neuron1 neuron2 0 false now
    else some net
  match step1 with
  | none => none
  | some net =>
    let step2 :=
      if (alookup (neuron2, neuron1) net.connections).isNone then
        connect net neuron2 neuron1 0 false now
      else some net
    match step2 with
    | none => none
    | some net =>
      match alookup (neuron1, neuron2) net.connections,
            alookup (neuron2, neuron1) net.connections with
      | some forward_conn, some backward_conn =>
        let prev_weight_forward := forward_conn.weight
        let prev_weight_backward := backward_conn.weight
        let weight_change := hl.learning_rate * (value1 / 100) * (value2 / 100)
        let fc := Connection.set_weight forward_conn now (prev_weight_forward + weight_change)
        let bc := Connection.set_weight backward_conn now (prev_weight_backward + weight_change)
        let conns2 := pyDictSet (pyDictSet net.connections (neuron1, neuron2) fc)
          (neuron2, neuron1) bc
        let net := { net with connections := conns2 }
        let event : LearningEvent :=
          { timestamp := now, neuron1 := neuron1, neuron2 := neuron2,
            value1 := value1, value2 := value2,
            prev_weight_forward := prev_weight_forward, new_weight_forward := fc.weight,
            prev_weight_backward := prev_weight_backward, new_weight_backward := bc.weight,
            learning_rate := hl.learning_rate }
        let evs := hl.learning_events ++ [event]
        some (net, { hl with learning_events :=
          if 100 < evs.length then evs.drop (evs.length - 100) else evs })
      | _, _ => none

/-- All unordered index pairs `(i, j)`, `i < j`, over `range n` — the list
comprehension in `perform_hebbian_learning`. -/
def allPairs (n : Nat) : List (Nat × Nat) :=
  (List.range n).flatMap (fun i => (List.range' (i + 1) (n - (i + 1))).map (fun j => (i, j)))

/-- `HebbianLearning.perform_hebbian_learning`.  The 5-second debounce floor
is the hard-coded `min_interval = 5`; `rng.sample` stands for
`random.sample`; missing list indices model Python's `IndexError`.  Returns
the updated helper state, the updated network and the list of pairs. -/
def perform_hebbian_learning (net : Network) (hl : HebbianState) (now : ℚ)
    (rng : RandomOracle) : Option (HebbianState × Network × List (String × String)) :=
  if now - hl.last_learning_time < 5 then some (hl, net, [])
  else
    let hl := { hl with last_learning_time := now }
    let threshold := cfgGet net.config.hebbian "active_threshold" 50
    let active_neurons := (net.state.map Prod.fst).filter
      (fun name =>
        if name ∈ hl.excluded_neurons then false
        else if threshold < get_neuron_value net.state name then true
        else false)
    if active_neurons.length < 2 then some (hl, net, [])
    else
      let n := active_neurons.length
      let sample_size := min 2 (n * (n - 1) / 2)
      let neuron_pairs := allPairs n
      let sampled_pairs :=
        if sample_size < neuron_pairs.length then rng.sample neuron_pairs sample_size
        else neuron_pairs
      let folded := optFold
        (fun (acc : Network × HebbianState × List (String × String)) (p : Nat × Nat) =>
          match active_neurons.get? p.1, active_neurons.get? p.2 with
          | some neuron1, some neuron2 =>
            let value1 := get_neuron_value acc.1.state neuron1
            let value2 := get_neuron_value acc.1.state neuron2
            if threshold < value1 ∧ threshold < value2 then
              match _update_connection acc.1 acc.2.1 now neuron1 neuron2 value1 value2 with
              | none => none
              | some (net, hl) => some (net, hl, acc.2.2 ++ [(neuron1, neuron2)])
            else some acc
          | _, _ => none)
        (net, hl, []) sampled_pairs
      match folded with
      | none => none
      | some (net, hl, pairs) => some (hl, net, pairs)

/-- `Network.initialize_learning`: constructs both helpers. -/
def Network.initLearning (net : Network) (now : ℚ) : Network :=
  { net with learning := some (HebbianState.init net.config now),
             neurogenesis := some (NeurogenesisState.init now) }

/-- `Network.perform_learning`: lazily construct the helpers when absent,
then run Hebbian learning. -/
def Network.perform_learning (net : Network) (now : ℚ) (rng : RandomOracle) :
    Option (Network × List (String × String)) :=
  let net := if net.learning.isNone then net.initLearning now else net
  match net.learning with
  | none => none
  | some hl =>
    match perform_hebbian_learning net hl now rng with
    | none => none
    | some (hl, net2, pairs) => some ({ net2 with learning := some hl }, pairs)

/-! ## Neurogenesis (utils/neurogenesis.py) -/

/-- The `base_name` lookup table in `Neurogenesis._create_neuron`. -/
def baseNameFor (neuron_type : String) : String :=
  (alookup neuron_type [("novelty", "novel"), ("stress", "stress"), ("reward", "reward")]).getD "new"

/-- The `related_neurons` lookup table in
`Neurogenesis._create_connections_for_new_neuron`. -/
def relatedNeuronsFor (neuron_type : String) : List String :=
  (alookup neuron_type
    [("novelty", ["curiosity"]), ("stress", ["anxiety"]),
     ("reward", ["satisfaction", "happiness"])]).getD []

/-- Stable insertion sort, standing in for Python's stable `sorted`. -/
def insertSortedBy {α : Type} (le : α → α → Bool) (a : α) : List α → List α
  | [] => [a]
  | b :: tl => if le a b then a :: b :: tl else b :: insertSortedBy le a tl

def sortBy {α : Type} (le : α → α → Bool) : List α → List α
  | [] => []
  | a :: tl => insertSortedBy le a (sortBy le tl)

/-- `Neurogenesis._find_position_for_new_neuron`: anchor near the most
active neuron, offset by an oracle-supplied random angle/distance with a
per-type angle bias, or an oracle-supplied random canvas position when the
network is empty.  (The anchor lookup cannot fail because the anchor name
comes from `net.neurons`; the fallback arm mirrors the empty case.) -/
def _find_position_for_new_neuron (net : Network) (neuron_type : String)
    (rng : RandomOracle) : ℚ × ℚ :=
  let active_neurons := (sortBy (fun a b => if (b.2 : ℚ) ≤ a.2 then true else false)
    (net.neurons.map (fun p => (p.1, get_neuron_value net.state p.1)))).take 3
  match active_neurons with
  | [] => (rng.uniform 100 900, rng.uniform 100 500)
  | anchor :: _ =>
    match alookup anchor.1 net.neurons with
    | none => (rng.uniform 100 900, rng.uniform 100 500)
    | some a =>
      let angle := rng.uniform 0 (2 * rng.piQ)
      let distance := rng.uniform 50 100
      let angle :=
        if neuron_type = "novelty" then angle + rng.piQ / 6
        else if neuron_type = "stress" then angle + rng.piQ / 2
        else if neuron_type = "reward" then angle + rng.piQ
        else angle
      (a.position.1 + rng.cosQ angle * distance, a.position.2 + rng.sinQ angle * distance)

/-- `Neurogenesis._create_connections_for_new_neuron`: bidirectional edge to
every existing non-excluded neuron; doubled strength for the related
concepts, an oracle-supplied random weight otherwise. -/
def _create_connections_for_new_neuron (net : Network) (new_name neuron_type : String)
    (now : ℚ) (rng : RandomOracle) : Option Network :=
  let conn_strength := cfgGet net.config.neurogenesis "new_neuron_connection_strength" (3/10)
  let related_neurons := relatedNeuronsFor neuron_type
  optFold
    (fun acc existing_name =>
      if existing_name ≠ new_name ∧ existing_name ∉ net.excluded_neurons then
        let weight :=
          if existing_name ∈ related_neurons then conn_strength * 2
          else rng.uniform (-conn_strength) conn_strength
        connect acc new_name existing_name weight true now
      else some acc)
    net (net.neurons.map Prod.fst)

/-- `Neurogenesis._create_neuron`: name `{base}_{len(new_neurons)}`, initial
activation 50, positioned by `_find_position_for_new_neuron`, then wired
up.  `add_neuron` raising on a duplicate name propagates as `none`. -/
def _create_neuron (net : Network) (ng : NeurogenesisState) (neuron_type : String)
    (_ngState : List (String × ℚ)) (now : ℚ) (rng : RandomOracle) :
    Option (Network × NeurogenesisState × String) :=
  let base_name := baseNameFor neuron_type
  let new_name := base_name ++ "_" ++ toString ng.new_neurons.length
  let position := _find_position_for_new_neuron net neuron_type rng
  (add_neuron net new_name (Value.num 50) (some position) neuron_type []).bind
    (fun net =>
      (_create_connections_for_new_neuron net new_name neuron_type now rng).bind
        (fun net =>
          some (net, { ng with new_neurons := ng.new_neurons ++ [new_name] }, new_name)))

/-- Steps 1–2 of `Neurogenesis.check_neurogenesis`: multiplicative decay of
all three counters followed by adding the input signals (missing keys
contribute 0).  These run on every call, before the cooldown check. -/
def ng_after_signals (net : Network) (ng : NeurogenesisState)
    (ngState : List (String × ℚ)) : NeurogenesisState :=
  let decay := cfgGet net.config.neurogenesis "decay_rate" (95/100)
  { ng with
    novelty_counter := ng.novelty_counter * decay + (alookup "novelty_exposure" ngState).getD 0,
    stress_counter := ng.stress_counter * decay + (alookup "sustained_stress" ngState).getD 0,
    reward_counter := ng.reward_counter * decay + (alookup "recent_rewards" ngState).getD 0 }

/-- Step 4 of `check_neurogenesis`: each counter strictly above its threshold
fires its trigger and is reset to 0. -/
def trigger_scan (net : Network) (ng : NeurogenesisState) :
    List String × NeurogenesisState :=
  let acc : List String × NeurogenesisState := ([], ng)
  let acc :=
    if cfgGet net.config.neurogenesis "novelty_threshold" 3 < acc.2.novelty_counter then
      (acc.1 ++ ["novelty"], { acc.2 with novelty_counter := 0 })
    else acc
  let acc :=
    if cfgGet net.config.neurogenesis "stress_threshold" (7/10) < acc.2.stress_counter then
      (acc.1 ++ ["stress"], { acc.2 with stress_counter := 0 })
    else acc
  let acc :=
    if cfgGet net.config.neurogenesis "reward_threshold" (6/10) < acc.2.reward_counter then
      (acc.1 ++ ["reward"], { acc.2 with reward_counter := 0 })
    else acc
  acc

/-- `Neurogenesis.check_neurogenesis`.  Counters are decayed and updated on
every call; inside the cooldown the call stops there and reports `false`.
Otherwise one neuron is created per firing trigger, and on success the
cooldown clock resets and an existing Hebbian helper's rate is boosted. -/
def check_neurogenesis (net : Network) (ng : NeurogenesisState)
    (ngState : List (String × ℚ)) (now : ℚ) (rng : RandomOracle) :
    Option (Network × NeurogenesisState × Bool) :=
  let ng := ng_after_signals net ng ngState
  let cooldown := cfgGet net.config.neurogenesis "cooldown" 300
  if now - ng.last_neuron_time ≤ cooldown then some (net, ng, false)
  else
    let scan := trigger_scan net ng
    (optFold
      (fun (acc : Network × NeurogenesisState × Bool) trigger_type =>
        (_create_neuron acc.1 acc.2.1 trigger_type ngState now rng).bind
          (fun r => some (r.1, r.2.1, acc.2.2 || (if r.2.2 = "" then false else true))))
      (net, scan.2, false) scan.1).bind
      (fun res =>
        if res.2.2 then
          let ng := { res.2.1 with last_neuron_time := now }
          let net :=
            match res.1.learning with
            | some hl =>
              { res.1 with learning := some (modify_learning_rate hl res.1.config
                  (cfgGet res.1.config.combined "neurogenesis_learning_boost" (3/2))) }
            | none => res.1
          some (net, ng, true)
        else some (res.1, res.2.1, false))

/-- The names a list of firing triggers will generate, starting from a
creation count of `n`: `{base}_{n + position-in-firing-order}`. -/
def futNames (ts : List String) (n : Nat) : List String :=
  ts.enum.map (fun p => baseNameFor p.2 ++ "_" ++ toString (n + p.1))

/-- The neuron names a `check_neurogenesis` call would create, in firing
order: `{base}_{len(new_neurons) + position-in-firing-order}`. -/
def candidate_names (net : Network) (ng : NeurogenesisState)
    (ngState : List (String × ℚ)) : List String :=
  futNames (trigger_scan net (ng_after_signals net ng ngState)).1 ng.new_neurons.length

/-! ## Persistence (`Network.save` / `Network.load`)

File I/O and JSON encoding are abstracted into the structured document
`SaveData` that `save` produces and `load` consumes; everything the Python
code writes into the JSON object is a field here.  The connection key is the
literal string `f"{src}_{tgt}"`, kept as its character list. -/

structure NeuronData where
  position : ℚ × ℚ
  type : String
  attributes : List (String × Value)
deriving DecidableEq

structure ConnData where
  weight : ℚ
  creation_time : ℚ
deriving DecidableEq

structure SaveData where
  neurons : List (String × NeuronData)
  connections : List (List Char × ConnData)
  state : StateMap
  config_hebbian : List (String × ℚ)
  config_neurogenesis : List (String × ℚ)
  meta_creation_time : ℚ
  meta_last_update : ℚ
  meta_update_count : Nat
deriving DecidableEq

/-- Python `str.split(sep)` for a single-character separator. -/
def pySplit (sep : Char) : List Char → List (List Char)
  | [] => [[]]
  | c :: rest =>
    let r := pySplit sep rest
    if c = sep then [] :: r
    else
      match r with
      | [] => [[c]]
      | h :: t => (c :: h) :: t

/-- `Network.save`: serialize neurons, connections (key `{src}_{tgt}`),
state, the hebbian/neurogenesis config sections and metadata. -/
def Network.save (net : Network) : SaveData :=
  { neurons := net.neurons.map
      (fun p => (p.1, { position := p.2.position, type := p.2.type,
                        attributes := p.2.attributes })),
    connections := net.connections.map
      (fun p => (p.1.1.toList ++ '_' :: p.1.2.toList,
                 { weight := p.2.weight, creation_time := p.2.creation_time })),
    state := net.state,
    config_hebbian := net.config.hebbian,
    config_neurogenesis := net.config.neurogenesis,
    meta_creation_time := net.creation_time,
    meta_last_update := net.last_update_time,
    meta_update_count := net.update_count }

/-- The `network.connections[(src, tgt)].creation_time = ...` restoration
step of `Network.load`. -/
def restore_creation_time (conns : List ((String × String) × Connection))
    (key : String × String) (t : ℚ) : List ((String × String) × Connection) :=
  conns.map (fun p => if p.1 = key then (p.1, { p.2 with creation_time := t }) else p)

/-- One iteration of the connection-restoring loop in `Network.load`:
`src, tgt = key.split("_")` raises (→ `none`) unless the split has exactly
two parts; `connect` raises on a missing endpoint. -/
def load_connection (now : ℚ) (net : Network) (entry : List Char × ConnData) :
    Option Network :=
  match pySplit '_' entry.1 with
  | [s, t] =>
    let src := String.mk s
    let tgt := String.mk t
    match connect net src tgt entry.2.weight false now with
    | none => none
    | some net =>
      if (alookup (src, tgt) net.connections).isSome then
        some { net with connections :=
            restore_creation_time net.connections (src, tgt) entry.2.creation_time }
      else some net
  | _ => none

/-- `Network.load`: rebuild config, metadata, neurons (via `add_neuron`),
connections (via `connect`), then restore the state mapping wholesale.  Any
error yields `none` — the all-or-nothing `LoadError` of the spec. -/
def Network.load (data : SaveData) (now : ℚ) : Option Network :=
  let config : Config :=
    { hebbian := data.config_hebbian, neurogenesis := data.config_neurogenesis,
      combined := Config.default.combined }
  let net0 : Network :=
    { Network.init config now with
      creation_time := data.meta_creation_time,
      last_update_time := data.meta_last_update,
      update_count := data.meta_update_count }
  (optFold
      (fun net (p : String × NeuronData) =>
        add_neuron net p.1 (Value.num 0) (some p.2.position) p.2.type p.2.attributes)
      net0 data.neurons).bind
    (fun net1 =>
      (optFold (load_connection now) net1 data.connections).bind
        (fun net2 => some { net2 with state := data.state }))

/-- The neuron data `save`/`load` must preserve: name, position, type and
attributes of every neuron, in storage order. -/
def neuron_summary (net : Network) :
    List (String × (ℚ × ℚ) × String × List (String × Value)) :=
  net.neurons.map (fun p => (p.1, p.2.position, p.2.type, p.2.attributes))

/-- The connection data `save`/`load` must preserve: every `(source, target)`
key with its weight, in storage order. -/
def connection_summary (net : Network) : List ((String × String) × ℚ) :=
  net.connections.map (fun p => (p.1, p.2.weight))

/-- The clamp invariant of claim C2, at network level. -/
def WeightsClamped (net : Network) : Prop :=
  ∀ p ∈ net.connections, -1 ≤ p.2.weight ∧ p.2.weight ≤ 1

instance (net : Network) : Decidable (WeightsClamped net) := by
  unfold WeightsClamped
  infer_instance

/-! ## BackpropNetwork (utils/backprop.py)

The sigmoid uses `math.exp`, which has no exact rational counterpart, so the
activation function is passed in as an uninterpreted `sig : ℚ → ℚ`; no claim
depends on its values.  Python exceptions become `Except PyError`. -/

inductive PyError where
  | valueError
  | keyError
  | typeError
  | zeroDivisionError
deriving DecidableEq

instance {ε α : Type} [DecidableEq ε] [DecidableEq α] : DecidableEq (Except ε α) :=
  fun a b =>
    match a, b with
    | .ok x, .ok y => if h : x = y then .isTrue (by rw [h]) else .isFalse (by simp [h])
    | .ok _, .error _ => .isFalse (by simp)
    | .error _, .ok _ => .isFalse (by simp)
    | .error x, .error y => if h : x = y then .isTrue (by rw [h]) else .isFalse (by simp [h])

structure BackpropState where
  learning_rate : ℚ
  momentum : ℚ
  layers : List (List String)
  prev_weight_changes : List ((String × String) × ℚ)
deriving DecidableEq

/-- `BackpropNetwork.__init__`. -/
def BackpropState.init : BackpropState :=
  { learning_rate := 1/10, momentum := 9/10, layers := [], prev_weight_changes := [] }

/-- `BackpropNetwork.set_layers`. -/
def set_layers (bp : BackpropState) (layers : List (List String)) : BackpropState :=
  { bp with layers := layers, prev_weight_changes := [] }

/-- Arithmetic on a raw state value (`value / 100.0` etc.): numbers and
booleans work, anything else is Python's `TypeError`. -/
def pyNum : Value → Except PyError ℚ
  | .num q => .ok q
  | .bool b => .ok (if b then 1 else 0)
  | _ => .error .typeError

/-- Direct `self.network.state[name]` access — `KeyError` when missing. -/
def stateGet (st : StateMap) (name : String) : Except PyError Value :=
  match alookup name st with
  | some v => .ok v
  | none => .error .keyError

/-- `BackpropNetwork.forward_pass`: write the inputs into the input layer,
then per subsequent layer compute `sig(sum weight * prev/100) * 100` per
neuron, mutating state as it goes; returns the output-layer values. -/
def forward_pass (net : Network) (bp : BackpropState) (inputs : List ℚ)
    (sig : ℚ → ℚ) : Except PyError (Network × List ℚ) :=
  if bp.layers = [] then .error .valueError
  else
    let input_layer := bp.layers.headD []
    let st := input_layer.enum.foldl
      (fun st p =>
        if p.1 < inputs.length then pyDictSet st p.2 (Value.num (inputs.getD p.1 0)) else st)
      net.state
    let net := { net with state := st }
    let propagated := exFold
      (fun (net : Network) (pr : List String × List String) =>
        exFold
          (fun (net : Network) neuron_name => do
            let ws ← exFold
              (fun (acc : ℚ) prev_neuron =>
                match alookup (prev_neuron, neuron_name) net.connections with
                | some conn => do
                  let v ← stateGet net.state prev_neuron
                  let q ← pyNum v
                  pure (acc + conn.weight * (q / 100))
                | none => pure acc)
              0 pr.1
            pure { net with state := pyDictSet net.state neuron_name (Value.num (sig ws * 100)) })
          net pr.2)
      net (bp.layers.zip bp.layers.tail)
    match propagated with
    | .error e => .error e
    | .ok net =>
      match exMapM (fun n => stateGet net.state n >>= pyNum) (bp.layers.getLastD []) with
      | .error e => .error e
      | .ok outs => .ok (net, outs)

/-- The descending `range(len(layers) - 2, -1, -1)` of `backward_pass`. -/
def hiddenIdxsDesc (nLayers : Nat) : List Nat := (List.range (nLayers - 1)).reverse

/-- `BackpropNetwork.backward_pass`: output deltas, hidden deltas, then the
momentum-assisted weight updates (each through `Connection.set_weight`),
finishing with the reported mean-squared error and total weight change. -/
def backward_pass (net : Network) (bp : BackpropState) (targets : List ℚ)
    (now : ℚ) : Except PyError (Network × BackpropState × ℚ × ℚ) :=
  if bp.layers = [] then .error .valueError
  else
    let output_layer := bp.layers.getLastD []
    if targets.length ≠ output_layer.length then .error .valueError
    else
      let normalized_targets := targets.map (fun t => t / 100)
      let outDeltas := exFold
        (fun (d : List (String × ℚ)) (p : Nat × String) => do
          let v ← stateGet net.state p.2
          let q ← pyNum v
          let output := q / 100
          let target := normalized_targets.getD p.1 0
          pure (pyDictSet d p.2 ((target - output) * output * (1 - output))))
        ([] : List (String × ℚ)) output_layer.enum
      match outDeltas with
      | .error e => .error e
      | .ok deltas0 =>
        let hidDeltas := exFold
          (fun (deltas : List (String × ℚ)) idx =>
            let current_layer := bp.layers.getD idx []
            let next_layer := bp.layers.getD (idx + 1) []
            exFold
              (fun (deltas : List (String × ℚ)) neuron_name => do
                let error_sum ← exFold
                  (fun (acc : ℚ) next_neuron =>
                    match alookup (neuron_name, next_neuron) net.connections with
                    | some connection =>
                      match alookup next_neuron deltas with
                      | some dlt => Except.ok (acc + connection.weight * dlt)
                      | none => Except.error PyError.keyError
                    | none => Except.ok acc)
                  0 next_layer
                let v ← stateGet net.state neuron_name
                let q ← pyNum v
                let output := q / 100
                pure (pyDictSet deltas neuron_name (error_sum * output * (1 - output))))
              deltas current_layer)
          deltas0 (hiddenIdxsDesc bp.layers.length)
        match hidDeltas with
        | .error e => .error e
        | .ok deltas =>
          let updated := exFold
            (fun (acc : Network × BackpropState × ℚ) idx =>
              let current_layer := bp.layers.getD idx []
              let next_layer := bp.layers.getD (idx + 1) []
              exFold
                (fun (acc : Network × BackpropState × ℚ) neuron_name => do
                  let v ← stateGet acc.1.state neuron_name
                  let q ← pyNum v
                  let output := q / 100
                  exFold
                    (fun (acc : Network × BackpropState × ℚ) next_neuron =>
                      match alookup (neuron_name, next_neuron) acc.1.connections with
                      | some connection => do
                        let dlt ← match alookup next_neuron deltas with
                          | some dlt => Except.ok dlt
                          | none => Except.error PyError.keyError
                        let delta_w := acc.2.1.learning_rate * dlt * output
                        let delta_w :=
                          match alookup (neuron_name, next_neuron) acc.2.1.prev_weight_changes with
                          | some prev => delta_w + acc.2.1.momentum * prev
                          | none => delta_w
                        let pwc := pyDictSet acc.2.1.prev_weight_changes
                          (neuron_name, next_neuron) delta_w
                        let bp' := { acc.2.1 with prev_weight_changes := pwc }
                        let conn := Connection.set_weight connection now (connection.weight + delta_w)
                        let newConns := pyDictSet acc.1.connections (neuron_name, next_neuron) conn
                        let net' := { acc.1 with connections := newConns }
                        pure (net', bp', acc.2.2 + |delta_w|)
                      | none => pure acc)
                    acc next_layer)
                acc current_layer)
            (net, bp, (0 : ℚ)) (List.range (bp.layers.length - 1))
          match updated with
          | .error e => .error e
          | .ok (net, bp, total_changes) =>
            let mseSum := exFold
              (fun (acc : ℚ) (p : Nat × String) => do
                let v ← stateGet net.state p.2
                let q ← pyNum v
                let output := q / 100
                let target := normalized_targets.getD p.1 0
                pure (acc + (target - output) ^ 2))
              0 output_layer.enum
            match mseSum with
            | .error e => .error e
            | .ok s =>
              if output_layer.length = 0 then .error .zeroDivisionError
              else .ok (net, bp, s / (output_layer.length : ℚ), total_changes)

/-- The per-epoch body of `BackpropNetwork.train`: shuffle (by oracle), run
forward+backward per example, average the error — `ZeroDivisionError` when
the training set is empty — then consult the callback and target error. -/
def trainGo (target_error : ℚ) (callback : Option (Nat → ℚ → Bool))
    (shuffle : List (List ℚ × List ℚ) → List (List ℚ × List ℚ)) (sig : ℚ → ℚ)
    (now : ℚ) :
    Nat → Nat → Network → BackpropState → List (List ℚ × List ℚ) → List ℚ →
    Except PyError (Network × BackpropState × List ℚ)
  | 0, _, net, bp, _, errors => .ok (net, bp, errors)
  | k + 1, epoch, net, bp, data, errors =>
    let data := shuffle data
    let epochRun := exFold
      (fun (acc : Network × BackpropState × ℚ) ex => do
        let fwd ← forward_pass acc.1 acc.2.1 ex.1 sig
        let bwd ← backward_pass fwd.1 acc.2.1 ex.2 now
        pure (bwd.1, bwd.2.1, acc.2.2 + bwd.2.2.1))
      (net, bp, (0 : ℚ)) data
    match epochRun with
    | .error e => .error e
    | .ok (net, bp, epoch_error) =>
      if data.length = 0 then .error .zeroDivisionError
      else
        let avg_error := epoch_error / (data.length : ℚ)
        let errors := errors ++ [avg_error]
        match callback with
        | some cb =>
          if !cb epoch avg_error then .ok (net, bp, errors)
          else if avg_error ≤ target_error then .ok (net, bp, errors)
          else trainGo target_error callback shuffle sig now k (epoch + 1) net bp data errors
        | none =>
          if avg_error ≤ target_error then .ok (net, bp, errors)
          else trainGo target_error callback shuffle sig now k (epoch + 1) net bp data errors

/-- `BackpropNetwork.train`. -/
def train (net : Network) (bp : BackpropState) (training_data : List (List ℚ × List ℚ))
    (epochs : Nat) (target_error : ℚ) (callback : Option (Nat → ℚ → Bool))
    (shuffle : List (List ℚ × List ℚ) → List (List ℚ × List ℚ)) (sig : ℚ → ℚ)
    (now : ℚ) : Except PyError (Network × BackpropState × List ℚ) :=
  trainGo target_error callback shuffle sig now epochs 0 net bp training_data []

/-- `outputs.index(max(outputs))` — `ValueError` on an empty list. -/
def pyArgmax (l : List ℚ) : Except PyError Nat :=
  match l with
  | [] => .error .valueError
  | hd :: _ =>
    let m := l.foldl max hd
    .ok ((l.findIdx? (fun x => x = m)).getD 0)

/-- `BackpropNetwork.test`: returns 0 immediately for an empty dataset,
otherwise the fraction of examples whose argmax output matches the argmax
target. -/
def test (net : Network) (bp : BackpropState) (test_data : List (List ℚ × List ℚ))
    (sig : ℚ → ℚ) : Except PyError ℚ :=
  if test_data = [] then .ok 0
  else
    let run := exFold
      (fun (acc : Network × Nat) ex => do
        let fwd ← forward_pass acc.1 bp ex.1 sig
        let max_idx ← pyArgmax fwd.2
        let target_idx ← pyArgmax ex.2
        pure (fwd.1, if max_idx = target_idx then acc.2 + 1 else acc.2))
      (net, 0) test_data
    match run with
    | .error e => .error e
    | .ok (_, correct) => .ok ((correct : ℚ) / (test_data.length : ℚ))

/-! ## Concrete fixtures used by the claim theorems -/

/-- A fixed, fully concrete random oracle for witnesses/counterexamples. -/
def rngZero : RandomOracle :=
  { uniform := fun a _ => a, cosQ := fun _ => 1, sinQ := fun _ => 0, piQ := 3,
    sample := fun l _ => l }

/-- Two neurons `A`, `B`, one connection `A→B` of weight `0.5`, state
`A = 80`, `B = 90` — the propagation scenario of claim C3. -/
def netC3 : Network :=
  { config := Config.default,
    neurons := [("A", Neuron.init "A" none "default" []),
                ("B", Neuron.init "B" none "default" [])],
    connections := [(("A", "B"), Connection.init "A" "B" (1/2) false 0)],
    state := [("A", Value.num 80), ("B", Value.num 90)],
    creation_time := 0, last_update_time := 0, update_count := 0,
    excluded_neurons := [], learning := none, neurogenesis := none }

/-- A network whose neuron `a_b` is connected to `c`: the underscore in the
name makes the saved connection key `a_b_c` ambiguous. -/
def netC5cex : Network :=
  { config := Config.default,
    neurons := [("a_b", Neuron.init "a_b" none "default" []),
                ("c", Neuron.init "c" none "default" [])],
    connections := [(("a_b", "c"), Connection.init "a_b" "c" (1/2) false 0)],
    state := [("a_b", Value.num 1), ("c", Value.num 2)],
    creation_time := 0, last_update_time := 0, update_count := 0,
    excluded_neurons := [], learning := none, neurogenesis := none }

/-- An underscore-free two-neuron network exercising the C5 round trip. -/
def netC5w : Network :=
  { config := Config.default,
    neurons := [("A", Neuron.init "A" (some (1, 2)) "default" [("k", Value.num 3)]),
                ("B", Neuron.init "B" (some (4, 5)) "reward" [])],
    connections := [(("A", "B"), Connection.init "A" "B" (1/2) false 0),
                    (("B", "A"), Connection.init "B" "A" (-1/4) false 0)],
    state := [("A", Value.num 80), ("B", Value.bool true)],
    creation_time := 7, last_update_time := 9, update_count := 3,
    excluded_neurons := [], learning := none, neurogenesis := none }

/-- Two neurons, both with activation 80 (> the active threshold 50), and no
connections yet — the Hebbian counterexample network for claim C6. -/
def netC6 : Network :=
  { config := Config.default,
    neurons := [("A", Neuron.init "A" none "default" []),
                ("B", Neuron.init "B" none "default" [])],
    connections := [],
    state := [("A", Value.num 80), ("B", Value.num 80)],
    creation_time := 0, last_update_time := 0, update_count := 0,
    excluded_neurons := [], learning := none, neurogenesis := none }

/-- A network that already contains a neuron named `novel_0` — the name the
next novelty-triggered neurogenesis will generate. -/
def netC8cex : Network :=
  { config := Config.default,
    neurons := [("novel_0", Neuron.init "novel_0" none "default" [])],
    connections := [],
    state := [("novel_0", Value.num 10)],
    creation_time := 0, last_update_time := 0, update_count := 0,
    excluded_neurons := [], learning := none, neurogenesis := none }

/-- A neurogenesis state whose novelty counter is far above threshold. -/
def ngC8 : NeurogenesisState :=
  { novelty_counter := 10, stress_counter := 0, reward_counter := 0,
    new_neurons := [], last_neuron_time := 0 }

/-- A plain one-neuron network with no reserved-form names, for the C8
witness. -/
def netC8w : Network :=
  { config := Config.default,
    neurons := [("curiosity", Neuron.init "curiosity" none "default" [])],
    connections := [],
    state := [("curiosity", Value.num 10)],
    creation_time := 0, last_update_time := 0, update_count := 0,
    excluded_neurons := [], learning := none, neurogenesis := none }

/-- A two-neuron network used to witness C2's `connect` conjunct. -/
def netC2base : Network :=
  { config := Config.default,
    neurons := [("A", Neuron.init "A" none "default" []),
                ("B", Neuron.init "B" none "default" [])],
    connections := [],
    state := [("A", Value.num 0), ("B", Value.num 0)],
    creation_time := 0, last_update_time := 0, update_count := 0,
    excluded_neurons := [], learning := none, neurogenesis := none }

/-- The network produced by `connect netC2base "A" "B" 5 false 0`. -/
def netC2res : Network :=
  { netC2base with
    connections := [(("A", "B"), Connection.init "A" "B" 5 false 0)] }

/-- An empty network with uninitialised learning helpers (C9 witness). -/
def netC9w : Network := Network.init Config.default 0

/-- Neurogenesis state for the C7 witness: some accumulated counters, with
the cooldown clock recently reset. -/
def ngC7 : NeurogenesisState :=
  { novelty_counter := 2, stress_counter := 1, reward_counter := 0,
    new_neurons := ["novel_0"], last_neuron_time := 900 }

/-! ## Dictionary lemmas -/

theorem alookup_append_left {α β : Type} [DecidableEq α] {k : α} {v : β}
    {d e : List (α × β)} (h : alookup k d = some v) : alookup k (d ++ e) = some v := by
  induction d with
  | nil => simp [alookup] at h
  | cons p tl ih =>
    rw [List.cons_append, alookup] at *
    by_cases h1 : p.1 = k
    · simpa [h1] using h
    · rw [if_neg h1] at h ⊢
      exact ih h

theorem alookup_append_right {α β : Type} [DecidableEq α] {k : α}
    {d e : List (α × β)} (h : alookup k d = none) : alookup k (d ++ e) = alookup k e := by
  induction d with
  | nil => simp
  | cons p tl ih =>
    rw [List.cons_append, alookup] at *
    by_cases h1 : p.1 = k
    · simp [h1] at h
    · rw [if_neg h1] at h ⊢
      exact ih h

theorem alookup_eq_none_iff {α β : Type} [DecidableEq α] {k : α} {d : List (α × β)} :
    alookup k d = none ↔ k ∉ d.map Prod.fst := by
  induction d with
  | nil => simp [alookup]
  | cons p tl ih =>
    rw [alookup]
    by_cases h1 : p.1 = k
    · simp [h1]
    · simp [h1, ih, Ne.symm h1]

theorem alookup_isSome_iff {α β : Type} [DecidableEq α] {k : α} {d : List (α × β)} :
    (alookup k d).isSome = true ↔ k ∈ d.map Prod.fst := by
  constructor
  · intro h
    by_contra hmem
    rw [alookup_eq_none_iff.mpr hmem] at h
    simp at h
  · intro hmem
    cases hs : alookup k d with
    | some v => simp
    | none => exact absurd hmem (alookup_eq_none_iff.mp hs)

theorem alookup_map_replace_ne {α β : Type} [DecidableEq α] {x k : α} {v : β}
    (d : List (α × β)) (h : x ≠ k) :
    alookup x (d.map (fun p => if p.1 = k then (k, v) else p)) = alookup x d := by
  induction d with
  | nil => simp
  | cons p tl ih =>
    by_cases h1 : p.1 = k
    · simp only [List.map_cons, if_pos h1, alookup]
      rw [if_neg (fun hk => h hk.symm), if_neg (by rw [h1]; exact fun hk => h hk.symm), ih]
    · simp only [List.map_cons, if_neg h1, alookup]
      by_cases h2 : p.1 = x <;> simp [h2, ih]

theorem alookup_map_replace_eq {α β : Type} [DecidableEq α] {k : α} {v : β}
    (d : List (α × β)) (h : (alookup k d).isSome = true) :
    alookup k (d.map (fun p => if p.1 = k then (k, v) else p)) = some v := by
  induction d with
  | nil => simp [alookup] at h
  | cons p tl ih =>
    by_cases h1 : p.1 = k
    · simp [alookup, h1]
    · rw [alookup, if_neg h1] at h
      simp only [List.map_cons, if_neg h1, alookup, if_neg h1]
      exact ih h

theorem alookup_pyDictSet {α β : Type} [DecidableEq α] (d : List (α × β)) (k x : α) (v : β) :
    alookup x (pyDictSet d k v) = if x = k then some v else alookup x d := by
  rw [pyDictSet]
  by_cases hs : (alookup k d).isSome = true
  · rw [if_pos hs]
    by_cases hx : x = k
    · rw [if_pos hx, hx, alookup_map_replace_eq d hs]
    · rw [if_neg hx, alookup_map_replace_ne d hx]
  · rw [if_neg hs]
    have hnone : alookup k d = none := Option.not_isSome_iff_eq_none.mp (by simpa using hs)
    by_cases hx : x = k
    · subst hx
      rw [if_pos rfl, alookup_append_right hnone, alookup, if_pos rfl]
    · rw [if_neg hx]
      cases hsx : alookup x d with
      | some w => rw [alookup_append_left hsx]
      | none =>
        rw [alookup_append_right hsx, alookup, if_neg (fun h => hx h.symm)]
        rfl

theorem pyDictSet_of_not_mem {α β : Type} [DecidableEq α] {k : α} {d : List (α × β)}
    (v : β) (h : alookup k d = none) : pyDictSet d k v = d ++ [(k, v)] := by
  rw [pyDictSet, if_neg (by simp [h])]

theorem mem_pyDictSet {α β : Type} [DecidableEq α] {k : α} {v : β} {d : List (α × β)}
    {p : α × β} (h : p ∈ pyDictSet d k v) : p = (k, v) ∨ p ∈ d := by
  rw [pyDictSet] at h
  by_cases hs : (alookup k d).isSome = true
  · rw [if_pos hs] at h
    rcases List.mem_map.mp h with ⟨q, hq, hpq⟩
    by_cases h1 : q.1 = k
    · left; rw [← hpq, if_pos h1]
    · right; rw [← hpq, if_neg h1]; exact hq
  · rw [if_neg hs] at h
    rcases List.mem_append.mp h with h | h
    · right; exact h
    · left; simpa using h

/-! ## Clamp and history lemmas -/

theorem neg_one_le_clampWeight (w : ℚ) : -1 ≤ clampWeight w := by
  unfold clampWeight pyMax pyMin
  split_ifs <;> linarith

theorem clampWeight_le_one (w : ℚ) : clampWeight w ≤ 1 := by
  unfold clampWeight pyMax pyMin
  split_ifs <;> linarith

theorem clampWeight_eq_self {w : ℚ} (h1 : -1 ≤ w) (h2 : w ≤ 1) : clampWeight w = w := by
  unfold clampWeight pyMax pyMin
  split_ifs <;> linarith

theorem getLast?_concat_drop {γ : Type} (l : List γ) (a : γ) (k : Nat)
    (hk : k ≤ l.length) : ((l ++ [a]).drop k).getLast? = some a := by
  rw [List.drop_append_of_le_length hk, List.getLast?_concat]

theorem set_weight_spec (c : Connection) (now w : ℚ) :
    -1 ≤ (c.set_weight now w).weight ∧ (c.set_weight now w).weight ≤ 1 ∧
    (c.set_weight now w).last_update = now ∧
    (c.set_weight now w).weight_history.getLast? = some (now, (c.set_weight now w).weight) := by
  refine ⟨neg_one_le_clampWeight w, clampWeight_le_one w, rfl, ?_⟩
  show (if 100 < (c.weight_history ++ [(now, clampWeight w)]).length then
      (c.weight_history ++ [(now, clampWeight w)]).drop
        ((c.weight_history ++ [(now, clampWeight w)]).length - 100)
    else c.weight_history ++ [(now, clampWeight w)]).getLast? = some (now, clampWeight w)
  by_cases h : 100 < (c.weight_history ++ [(now, clampWeight w)]).length
  · rw [if_pos h]
    apply getLast?_concat_drop
    simp only [List.length_append, List.length_cons, List.length_nil] at h ⊢
    omega
  · rw [if_neg h, List.getLast?_concat]

/-! ## Fold invariance lemmas -/

theorem optFold_preserve {σ α : Type} (P : σ → Prop) (f : σ → α → Option σ)
    (hf : ∀ s a s', P s → f s a = some s' → P s') :
    ∀ (l : List α) (s s' : σ), P s → optFold f s l = some s' → P s' := by
  intro l
  induction l with
  | nil =>
    intro s s' hP h
    rw [optFold] at h
    cases h
    exact hP
  | cons a tl ih =>
    intro s s' hP h
    rw [optFold] at h
    cases hfa : f s a with
    | none => rw [hfa] at h; cases h
    | some s1 =>
      rw [hfa] at h
      exact ih s1 s' (hf s a s1 hP hfa) h

theorem exFold_preserve {ε σ α : Type} (P : σ → Prop) (f : σ → α → Except ε σ)
    (hf : ∀ s a s', P s → f s a = .ok s' → P s') :
    ∀ (l : List α) (s s' : σ), P s → exFold f s l = .ok s' → P s' := by
  intro l
  induction l with
  | nil =>
    intro s s' hP h
    rw [exFold] at h
    cases h
    exact hP
  | cons a tl ih =>
    intro s s' hP h
    rw [exFold] at h
    cases hfa : f s a with
    | error e => rw [hfa] at h; cases h
    | ok s1 =>
      rw [hfa] at h
      exact ih s1 s' (hf s a s1 hP hfa) h

/-! ## Propagation lemmas -/

theorem alookup_foldl_cond_set (ns : List String) (st : StateMap) (c : String → Prop)
    [DecidablePred c] (f : String → Value) (x : String) :
    alookup x (ns.foldl (fun s t => if c t then pyDictSet s t (f t) else s) st) =
      if x ∈ ns ∧ c x then some (f x) else alookup x st := by
  induction ns generalizing st with
  | nil => simp
  | cons hd tl ih =>
    rw [List.foldl_cons, ih]
    by_cases hc : x ∈ tl ∧ c x
    · rw [if_pos hc, if_pos ⟨List.mem_cons_of_mem hd hc.1, hc.2⟩]
    · rw [if_neg hc]
      by_cases hx : x = hd
      · subst hx
        by_cases hcx : c x
        · rw [if_pos hcx, alookup_pyDictSet, if_pos rfl,
            if_pos ⟨List.mem_cons_self x tl, hcx⟩]
        · rw [if_neg hcx, if_neg (fun h => hcx h.2)]
      · have hout : ¬(x ∈ hd :: tl ∧ c x) := by
          rintro ⟨hmem, hcx⟩
          rcases List.mem_cons.mp hmem with h | h
          · exact hx h
          · exact hc ⟨h, hcx⟩
        rw [if_neg hout]
        by_cases hchd : c hd
        · rw [if_pos hchd, alookup_pyDictSet, if_neg hx]
        · rw [if_neg hchd]

theorem propagate_target_value_nonneg (net : Network) (t : String) :
    0 ≤ propagate_target_value net t := by
  unfold propagate_target_value pyMax pyMin
  split_ifs <;> linarith

theorem propagate_target_value_le (net : Network) (t : String) :
    propagate_target_value net t ≤ 100 := by
  unfold propagate_target_value pyMax pyMin
  split_ifs <;> linarith


/-! ## Claim C2 -/

theorem connection_init_bounds (s t : String) (w : ℚ) (b : Bool) (now : ℚ) :
    -1 ≤ (Connection.init s t w b now).weight ∧ (Connection.init s t w b now).weight ≤ 1 :=
  ⟨neg_one_le_clampWeight w, clampWeight_le_one w⟩

theorem weights_clamped_insert {conns : List ((String × String) × Connection)}
    {k : String × String} {c : Connection}
    (hall : ∀ p ∈ conns, -1 ≤ p.2.weight ∧ p.2.weight ≤ 1)
    (hc : -1 ≤ c.weight ∧ c.weight ≤ 1) :
    ∀ p ∈ pyDictSet conns k c, -1 ≤ p.2.weight ∧ p.2.weight ≤ 1 := by
  intro p hp
  rcases mem_pyDictSet hp with h | h
  · rw [h]
    exact hc
  · exact hall p h

theorem connect_preserves_clamped {net : Network} {s t : String} {w : ℚ} {b : Bool}
    {now : ℚ} {net' : Network} (h : connect net s t w b now = some net')
    (hc : WeightsClamped net) : WeightsClamped net' := by
  simp only [connect] at h
  split at h
  · cases h
  · split at h
    · cases h
    · cases h
      intro p hp
      simp only at hp
      split at hp
      · exact weights_clamped_insert (weights_clamped_insert hc
          (connection_init_bounds s t w b now)) (connection_init_bounds t s w true now) p hp
      · exact weights_clamped_insert hc (connection_init_bounds s t w b now) p hp

theorem update_connection_preserves_clamped {net : Network} {hl : HebbianState}
    {now : ℚ} {n1 n2 : String} {v1 v2 : ℚ} {r : Network × HebbianState}
    (hc : WeightsClamped net) (h : _update_connection net hl now n1 n2 v1 v2 = some r) :
    WeightsClamped r.1 := by
  simp only [_update_connection] at h
  have step1 : ∀ m : Network,
      (if (alookup (n1, n2) net.connections).isNone = true then
        connect net n1 n2 0 false now else some net) = some m → WeightsClamped m := by
    intro m hm
    split at hm
    · exact connect_preserves_clamped hm hc
    · cases hm
      exact hc
  revert h
  split
  · intro h
    cases h
  · next m1 heq1 =>
    have hm1 := step1 m1 heq1
    have step2 : ∀ m : Network,
        (if (alookup (n2, n1) m1.connections).isNone = true then
          connect m1 n2 n1 0 false now else some m1) = some m → WeightsClamped m := by
      intro m hm
      split at hm
      · exact connect_preserves_clamped hm hm1
      · cases hm
        exact hm1
    split
    · intro h
      cases h
    · next m2 heq2 =>
      have hm2 := step2 m2 heq2
      split
      · next fc bc hfc hbc =>
        intro h
        cases h
        intro p hp
        simp only at hp
        refine weights_clamped_insert (weights_clamped_insert hm2 ?_) ?_ p hp
        · exact ⟨(set_weight_spec fc now _).1, (set_weight_spec fc now _).2.1⟩
        · exact ⟨(set_weight_spec bc now _).1, (set_weight_spec bc now _).2.1⟩
      · intro h
        cases h

theorem apply_weight_decay_preserves_clamped (net : Network) (now : ℚ)
    (_hc : WeightsClamped net) : WeightsClamped (apply_weight_decay net now).1 := by
  intro p hp
  simp only [apply_weight_decay] at hp
  rcases List.mem_map.mp hp with ⟨q, _, hpq⟩
  rw [← hpq]
  exact ⟨(set_weight_spec q.2 now _).1, (set_weight_spec q.2 now _).2.1⟩

theorem backward_pass_preserves_clamped {net : Network} {bp : BackpropState}
    {targets : List ℚ} {now : ℚ} {r : Network × BackpropState × ℚ × ℚ}
    (hc : WeightsClamped net) (h : backward_pass net bp targets now = .ok r) :
    WeightsClamped r.1 := by
  simp only [backward_pass] at h
  split at h
  · cases h
  · split at h
    · cases h
    · split at h
      · cases h
      · split at h
        · cases h
        · split at h
          · cases h
          · next net1 bp1 tc hupd =>
            have hnet1 : WeightsClamped net1 := by
              refine exFold_preserve
                (fun (acc : Network × BackpropState × ℚ) => WeightsClamped acc.1)
                _ ?_ _ _ _ hc hupd
              intro s idx s' hPs hstep
              simp only at hstep
              refine exFold_preserve
                (fun (acc : Network × BackpropState × ℚ) => WeightsClamped acc.1)
                _ ?_ _ _ _ hPs hstep
              intro s2 nm s2' hPs2 hstep2
              simp only [bind, Except.bind] at hstep2
              split at hstep2
              · cases hstep2
              · split at hstep2
                · cases hstep2
                · refine exFold_preserve
                    (fun (acc : Network × BackpropState × ℚ) => WeightsClamped acc.1)
                    _ ?_ _ _ _ hPs2 hstep2
                  intro s3 nn s3' hPs3 hstep3
                  revert hstep3
                  split
                  · next connection hconn =>
                    split
                    · intro hstep3
                      simp only [bind, Except.bind, pure, Except.pure] at hstep3
                      cases hstep3
                      intro p hp
                      simp only at hp
                      refine weights_clamped_insert hPs3 ?_ p hp
                      exact ⟨(set_weight_spec connection now _).1,
                        (set_weight_spec connection now _).2.1⟩
                    · intro hstep3
                      try simp only [bind, Except.bind, pure, Except.pure] at hstep3
                      cases hstep3
                  · intro hstep3
                    cases hstep3
                    exact hPs3
            split at h
            · cases h
            · split at h
              · cases h
              · cases h
                exact hnet1

/-- C2: every weight write goes through `Connection.set_weight`, so after any
of the mutation paths — `Connection` construction, `set_weight`,
`apply_decay`, Hebbian reinforcement (`_update_connection`), backprop weight
updates (`backward_pass`), plus `connect` and `apply_weight_decay` at network
level — every stored weight lies in `[-1, 1]`; and each `Connection`-level
mutation appends a `(timestamp, weight)` entry (the history's new last
entry) and refreshes `last_update`. -/
theorem c2_weight_clamp_and_history_invariant :
    (∀ (c : Connection) (now w : ℚ),
      -1 ≤ (c.set_weight now w).weight ∧ (c.set_weight now w).weight ≤ 1 ∧
      (c.set_weight now w).last_update = now ∧
      (c.set_weight now w).weight_history.getLast? = some (now, (c.set_weight now w).weight)) ∧
    (∀ (c : Connection) (now f : ℚ),
      -1 ≤ (c.apply_decay now f).weight ∧ (c.apply_decay now f).weight ≤ 1 ∧
      (c.apply_decay now f).last_update = now ∧
      (c.apply_decay now f).weight_history.getLast? = some (now, (c.apply_decay now f).weight)) ∧
    (∀ (s t : String) (w : ℚ) (b : Bool) (now : ℚ),
      -1 ≤ (Connection.init s t w b now).weight ∧ (Connection.init s t w b now).weight ≤ 1 ∧
      (Connection.init s t w b now).last_update = now ∧
      (Connection.init s t w b now).weight_history = [(now, (Connection.init s t w b now).weight)]) ∧
    (∀ (net : Network) (s t : String) (w : ℚ) (b : Bool) (now : ℚ) (net' : Network),
      connect net s t w b now = some net' → WeightsClamped net → WeightsClamped net') ∧
    (∀ (net : Network) (now : ℚ),
      WeightsClamped net → WeightsClamped (apply_weight_decay net now).1) ∧
    (∀ (net : Network) (hl : HebbianState) (now : ℚ) (n1 n2 : String) (v1 v2 : ℚ)
      (r : Network × HebbianState),
      WeightsClamped net → _update_connection net hl now n1 n2 v1 v2 = some r →
      WeightsClamped r.1) ∧
    (∀ (net : Network) (bp : BackpropState) (targets : List ℚ) (now : ℚ)
      (r : Network × BackpropState × ℚ × ℚ),
      WeightsClamped net → backward_pass net bp targets now = .ok r → WeightsClamped r.1) := by
  refine ⟨set_weight_spec, fun c now f => set_weight_spec c now _, ?_, ?_, ?_, ?_, ?_⟩
  · intro s t w b now
    refine ⟨neg_one_le_clampWeight w, clampWeight_le_one w, rfl, rfl⟩
  · intro net s t w b now net' h hc
    exact connect_preserves_clamped h hc
  · intro net now hc
    exact apply_weight_decay_preserves_clamped net now hc
  · intro net hl now n1 n2 v1 v2 r hc h
    exact update_connection_preserves_clamped hc h
  · intro net bp targets now r hc h
    exact backward_pass_preserves_clamped hc h

/-- Witness for C2: concrete instantiations of the hypothesis-bearing
conjuncts — `connect` on a concrete network with a requested weight of 5
(out of range) still yields clamped weights. -/
theorem c2_weight_clamp_and_history_invariant_witness : WeightsClamped netC2res :=
  c2_weight_clamp_and_history_invariant.2.2.2.1 netC2base "A" "B" 5 false 0 netC2res
    (rfl) (by decide)

/-! ## Claims C6 and C9: the Hebbian debounce -/

theorem update_connection_last {net : Network} {hl : HebbianState} {now : ℚ}
    {n1 n2 : String} {v1 v2 : ℚ} {r : Network × HebbianState}
    (h : _update_connection net hl now n1 n2 v1 v2 = some r) :
    r.2.last_learning_time = hl.last_learning_time := by
  simp only [_update_connection] at h
  revert h
  split
  · intro h
    cases h
  · split
    · intro h
      cases h
    · split
      · intro h
        cases h
        rfl
      · intro h
        cases h

theorem hebbian_passed_last {net : Network} {hl : HebbianState} {now : ℚ}
    {rng : RandomOracle} {r : HebbianState × Network × List (String × String)}
    (hdeb : ¬(now - hl.last_learning_time < 5))
    (h : perform_hebbian_learning net hl now rng = some r) :
    r.1.last_learning_time = now := by
  rw [perform_hebbian_learning, if_neg hdeb] at h
  simp only at h
  split at h
  · cases h
    rfl
  · split at h
    · cases h
    · next net2 hl2 pairs2 heq =>
      cases h
      refine optFold_preserve
        (fun (acc : Network × HebbianState × List (String × String)) =>
          acc.2.1.last_learning_time = now)
        _ ?_ _ _ _ rfl heq
      intro s p s' hPs hstep
      revert hstep
      split
      · split
        · split
          · intro hstep
            cases hstep
          · next m heq2 =>
            intro hstep
            cases hstep
            simpa using (update_connection_last heq2).trans hPs
        · intro hstep
          cases hstep
          exact hPs
      · intro hstep
        cases hstep

/-- C6 (counterexample to the claim as stated): the debounce clock advances
only on calls that pass it.  With the helper constructed at time 0, a first
call at t = 4 is itself debounced (returns `[]` with state unchanged), and a
second call at t = 8 — only 4 seconds after the first, i.e. the two calls
are fewer than 5 seconds apart — passes the 5-second check (8 − 0 ≥ 5) and
performs a weight update, returning the non-empty pair list `[("A", "B")]`. -/
theorem c6_debounce_counterexample :
    ((8 : ℚ) - 4 < 5) ∧
    perform_hebbian_learning netC6 (HebbianState.init Config.default 0) 4 rngZero =
      some (HebbianState.init Config.default 0, netC6, []) ∧
    (perform_hebbian_learning netC6 (HebbianState.init Config.default 0) 8 rngZero).map
      (fun r => r.2.2) = some [("A", "B")] ∧
    [("A", "B")] ≠ ([] : List (String × String)) := by
  refine ⟨by norm_num, ?_, ?_, by decide⟩
  · simp [perform_hebbian_learning, HebbianState.init, Config.default, cfgGet, alookup]
    norm_num
  · simp +decide [perform_hebbian_learning, HebbianState.init, Config.default, cfgGet, alookup,
      netC6, get_neuron_value, isinstance_int_float, pyFloat, allPairs, rngZero,
      _update_connection, connect, Connection.init, Connection.set_weight, clampWeight,
      pyMin, pyMax, pyDictSet, Neuron.init, List.range', optFold]

/-- C6 (amended): if the first `perform_hebbian_learning` call is itself not
debounced (at least 5 seconds since the last learning that passed the check,
or since construction), then a second call made fewer than 5 seconds later
performs no weight updates and returns the empty list, leaving both the
helper state and the network exactly as the first call left them.  This
holds for every configuration, so the fixed 5-second floor is independent of
the configurable `learning_interval` parameter. -/
theorem c6_debounce_between_learning_calls (net : Network) (hl : HebbianState)
    (t1 t2 : ℚ) (rng rng2 : RandomOracle)
    (r1 : HebbianState × Network × List (String × String))
    (h1 : ¬(t1 - hl.last_learning_time < 5)) (h2 : t2 - t1 < 5)
    (h3 : perform_hebbian_learning net hl t1 rng = some r1) :
    perform_hebbian_learning r1.2.1 r1.1 t2 rng2 = some (r1.1, r1.2.1, []) := by
  have hlast : r1.1.last_learning_time = t1 := hebbian_passed_last h1 h3
  rw [perform_hebbian_learning, if_pos (by rw [hlast]; exact h2)]

/-- Witness for C6's amended theorem: an empty network, helper constructed
at time 0, first call at t = 10 (passes the debounce, no active neurons),
second call at t = 12. -/
theorem c6_debounce_between_learning_calls_witness :
    perform_hebbian_learning netC9w
      { HebbianState.init Config.default 0 with last_learning_time := 10 } 12 rngZero =
      some ({ HebbianState.init Config.default 0 with last_learning_time := 10 },
        netC9w, []) :=
  c6_debounce_between_learning_calls netC9w (HebbianState.init Config.default 0) 10 12
    rngZero rngZero
    ({ HebbianState.init Config.default 0 with last_learning_time := 10 }, netC9w, [])
    (by norm_num [HebbianState.init]) (by norm_num)
    (by
      simp [perform_hebbian_learning, HebbianState.init, netC9w, Network.init,
        Config.default, cfgGet, alookup]
      norm_num)

/-- C9: the Hebbian debounce clock starts at construction time.  Any
`perform_hebbian_learning` call within 5 seconds of constructing the helper
returns the empty list with helper and network unchanged, regardless of the
network (so no matter how many neurons are active); in particular the very
first `Network.perform_learning` call, which lazily constructs the helpers
at the current time, always returns the empty list and leaves the network's
connections untouched. -/
theorem c9_first_call_debounced :
    (∀ (cfg : Config) (net : Network) (t0 t : ℚ) (rng : RandomOracle), t - t0 < 5 →
      perform_hebbian_learning net (HebbianState.init cfg t0) t rng =
        some (HebbianState.init cfg t0, net, [])) ∧
    (∀ (net : Network) (t : ℚ) (rng : RandomOracle), net.learning = none →
      Network.perform_learning net t rng = some (net.initLearning t, [])) := by
  constructor
  · intro cfg net t0 t rng h
    rw [perform_hebbian_learning,
      if_pos (show t - (HebbianState.init cfg t0).last_learning_time < 5 from h)]
  · intro net t rng h
    have hfirst : perform_hebbian_learning (net.initLearning t)
        (HebbianState.init net.config t) t rng =
        some (HebbianState.init net.config t, net.initLearning t, []) := by
      rw [perform_hebbian_learning,
        if_pos (show t - (HebbianState.init net.config t).last_learning_time < 5 by
          simp [HebbianState.init])]
    have hlearning : (net.initLearning t).learning = some (HebbianState.init net.config t) :=
      rfl
    have heta : { net.initLearning t with
        learning := some (HebbianState.init net.config t) } = net.initLearning t := rfl
    simp only [Network.perform_learning, h, Option.isNone_none, if_pos, hlearning, hfirst,
      heta]

/-- Witness for C9: a concrete empty network, helper constructed at 0,
called at t = 3 (< 5 seconds later), and the first lazy
`Network.perform_learning` call at t = 3. -/
theorem c9_first_call_debounced_witness :
    perform_hebbian_learning netC9w (HebbianState.init Config.default 0) 3 rngZero =
      some (HebbianState.init Config.default 0, netC9w, []) ∧
    Network.perform_learning netC9w 3 rngZero = some (netC9w.initLearning 3, []) :=
  ⟨c9_first_call_debounced.1 Config.default netC9w 0 3 rngZero (by norm_num),
   c9_first_call_debounced.2 netC9w 3 rngZero rfl⟩

/-! ## Claim C1 -/

/-- C1 (code_bug evidence): the spec's normalization rule says a boolean
`True` state maps to `100.0`, but `get_neuron_value` returns `1.0` for it:
`isinstance(value, (int, float))` is true for Python booleans, so
`float(True) = 1.0` is returned and the dedicated bool branch is dead code.
The other three legs of the rule (numeric passthrough, string sentinel 75.0,
missing name 0.0) behave as specified, and `False` coincidentally yields the
specified `0.0`. -/
theorem c1_get_neuron_value_bool_divergence :
    get_neuron_value [("flag", Value.bool true)] "flag" = 1 ∧
    get_neuron_value [("flag", Value.bool true)] "flag" ≠ 100 ∧
    get_neuron_value [("flag", Value.bool false)] "flag" = 0 ∧
    get_neuron_value [("x", Value.num 42)] "x" = 42 ∧
    get_neuron_value [("s", Value.str "hello")] "s" = 75 ∧
    get_neuron_value [] "missing" = 0 := by
  refine ⟨by decide, by decide, by decide, by decide, by decide, by decide⟩

/-! ## Claim C3 -/

/-- C3: on the two-neuron network `A→B` (weight 0.5) with state `A = 80`,
`B = 90`, one `propagate_activation()` step sets `B` to exactly
`0.7 * 90 + 0.3 * (80 * 0.5) = 75.0` (B has exactly one incoming
connection) and leaves `A` unchanged at 80 (no incoming edges). -/
theorem c3_propagation_scenario :
    alookup "B" (Network.propagate_activation netC3 1).state = some (Value.num 75) ∧
    alookup "A" (Network.propagate_activation netC3 1).state = some (Value.num 80) := by
  constructor
  · simp [Network.propagate_activation, propagate_step, propagate_target_value, incomingFor,
      get_neuron_value, alookup, pyDictSet, pyMin, pyMax, netC3, Neuron.init, Connection.init,
      Connection.set_weight, clampWeight, isinstance_int_float, pyFloat]
    norm_num
  · simp [Network.propagate_activation, propagate_step, propagate_target_value, incomingFor,
      get_neuron_value, alookup, pyDictSet, pyMin, pyMax, netC3, Neuron.init, Connection.init,
      Connection.set_weight, clampWeight, isinstance_int_float, pyFloat]

/-! ## Claim C4 -/

/-- C4: after one `propagate_activation` step, every neuron with at least
one incoming connection holds `propagate_target_value` — a clamped value in
`[0, 100]` computed solely from the pre-step network (so updates are
synchronous, with no intra-step ordering dependency) — while every other
name, in particular every neuron with zero incoming connections, keeps its
prior state entry unchanged. -/
theorem c4_propagation_step_invariants (net : Network) (t : String) :
    (alookup t (Network.propagate_activation net 1).state =
      if t ∈ net.neurons.map Prod.fst ∧ 0 < (incomingFor net t).2
      then some (Value.num (propagate_target_value net t))
      else alookup t net.state) ∧
    0 ≤ propagate_target_value net t ∧ propagate_target_value net t ≤ 100 := by
  refine ⟨?_, propagate_target_value_nonneg net t, propagate_target_value_le net t⟩
  have hstate : (Network.propagate_activation net 1).state = propagate_step net := rfl
  rw [hstate, propagate_step, alookup_foldl_cond_set]

/-! ## Claim C7 -/

/-- C7: while the elapsed time since the last successful neurogenesis is at
most the configured cooldown, `check_neurogenesis` returns `false` and
leaves the network untouched, yet the three trigger counters have still each
been multiplied by the configured decay rate and incremented by the
corresponding input signal (`novelty_exposure`, `sustained_stress`,
`recent_rewards`; missing keys contribute 0). -/
theorem c7_cooldown_still_updates_counters (net : Network) (ng : NeurogenesisState)
    (ngState : List (String × ℚ)) (now : ℚ) (rng : RandomOracle)
    (h : now - ng.last_neuron_time ≤ cfgGet net.config.neurogenesis "cooldown" 300) :
    check_neurogenesis net ng ngState now rng =
      some (net, ng_after_signals net ng ngState, false) ∧
    ng_after_signals net ng ngState =
      { ng with
        novelty_counter :=
          ng.novelty_counter * cfgGet net.config.neurogenesis "decay_rate" (95/100) +
            (alookup "novelty_exposure" ngState).getD 0,
        stress_counter :=
          ng.stress_counter * cfgGet net.config.neurogenesis "decay_rate" (95/100) +
            (alookup "sustained_stress" ngState).getD 0,
        reward_counter :=
          ng.reward_counter * cfgGet net.config.neurogenesis "decay_rate" (95/100) +
            (alookup "recent_rewards" ngState).getD 0 } := by
  refine ⟨?_, rfl⟩
  rw [check_neurogenesis]
  simp only []
  rw [if_pos (show now - (ng_after_signals net ng ngState).last_neuron_time ≤
    cfgGet net.config.neurogenesis "cooldown" 300 from h)]

/-- Witness for C7: a concrete call 100 seconds after the last neurogenesis
with a 300-second cooldown. -/
theorem c7_cooldown_still_updates_counters_witness :
    check_neurogenesis netC3 ngC7 [("novelty_exposure", 2)] 1000 rngZero =
      some (netC3, ng_after_signals netC3 ngC7 [("novelty_exposure", 2)], false) :=
  (c7_cooldown_still_updates_counters netC3 ngC7 [("novelty_exposure", 2)] 1000 rngZero
    (by simp +decide [cfgGet, alookup, netC3, Config.default, ngC7]; norm_num)).1

/-! ## Claim C10 -/

/-- C10: `train` on an empty training list raises `ZeroDivisionError` on the
first epoch, when the epoch error is averaged over `len(training_data)` —
no forward or backward pass has run (the per-example loop iterated over an
empty list) — whereas `test` returns 0 for an empty dataset. -/
theorem c10_train_empty_division_error (net : Network) (bp : BackpropState)
    (epochs : Nat) (target_error : ℚ) (callback : Option (Nat → ℚ → Bool))
    (shuffle : List (List ℚ × List ℚ) → List (List ℚ × List ℚ)) (sig : ℚ → ℚ)
    (now : ℚ) (he : 1 ≤ epochs) (hs : shuffle [] = []) :
    train net bp [] epochs target_error callback shuffle sig now =
      .error .zeroDivisionError ∧
    test net bp [] sig = .ok 0 := by
  constructor
  · rw [train]
    obtain ⟨k, rfl⟩ : ∃ k, epochs = k + 1 := ⟨epochs - 1, by omega⟩
    simp [trainGo, hs, exFold]
  · rw [test, if_pos rfl]

/-- Witness for C10 at a concrete network and backprop state. -/
theorem c10_train_empty_division_error_witness :
    train netC3 BackpropState.init [] 100 (1/100) none id (fun x => x) 0 =
      .error .zeroDivisionError ∧
    test netC3 BackpropState.init [] (fun x => x) = .ok 0 :=
  c10_train_empty_division_error netC3 BackpropState.init 100 (1/100) none id
    (fun x => x) 0 (by norm_num) rfl

/-! ## Claim C8: neurogenesis totality -/

theorem connect_fields {net : Network} {s t : String} {w : ℚ} {b : Bool} {now : ℚ}
    (hs : s ∈ net.neurons.map Prod.fst) (ht : t ∈ net.neurons.map Prod.fst) :
    ∃ net', connect net s t w b now = some net' ∧ net'.neurons = net.neurons ∧
      net'.config = net.config ∧ net'.excluded_neurons = net.excluded_neurons ∧
      net'.state = net.state := by
  rw [connect]
  rw [if_neg (by
    rw [Option.isNone_iff_eq_none]
    exact fun hn => (alookup_eq_none_iff.mp hn) hs)]
  rw [if_neg (by
    rw [Option.isNone_iff_eq_none]
    exact fun hn => (alookup_eq_none_iff.mp hn) ht)]
  exact ⟨_, rfl, rfl, rfl, rfl, rfl⟩

theorem connect_fold_spec (new_name : String) (now : ℚ) (wt : String → ℚ)
    (excl : List String) :
    ∀ (l : List String) (acc : Network),
      new_name ∈ acc.neurons.map Prod.fst → (∀ e ∈ l, e ∈ acc.neurons.map Prod.fst) →
      ∃ net', optFold (fun acc existing_name =>
          if existing_name ≠ new_name ∧ existing_name ∉ excl then
            connect acc new_name existing_name (wt existing_name) true now
          else some acc) acc l = some net' ∧
        net'.neurons = acc.neurons ∧ net'.config = acc.config ∧
        net'.excluded_neurons = acc.excluded_neurons ∧ net'.state = acc.state := by
  intro l
  induction l with
  | nil =>
    intro acc _ _
    exact ⟨acc, rfl, rfl, rfl, rfl, rfl⟩
  | cons hd tl ih =>
    intro acc hnew hall
    rw [optFold]
    by_cases hcond : hd ≠ new_name ∧ hd ∉ excl
    · rw [if_pos hcond]
      rcases connect_fields hnew (hall hd (by simp)) with ⟨net1, hc, hneu, hcfg, hexc, hst⟩
      rw [hc]
      rcases ih net1 (by rw [hneu]; exact hnew)
        (fun e he => by rw [hneu]; exact hall e (List.mem_cons_of_mem hd he)) with
        ⟨net', hfold, h1, h2, h3, h4⟩
      exact ⟨net', hfold, h1.trans hneu, h2.trans hcfg, h3.trans hexc, h4.trans hst⟩
    · rw [if_neg hcond]
      exact ih acc hnew (fun e he => hall e (List.mem_cons_of_mem hd he))

theorem create_connections_spec {net : Network} {new_name neuron_type : String}
    {now : ℚ} {rng : RandomOracle} (hnew : new_name ∈ net.neurons.map Prod.fst) :
    ∃ net', _create_connections_for_new_neuron net new_name neuron_type now rng = some net' ∧
      net'.neurons = net.neurons ∧ net'.config = net.config ∧
      net'.excluded_neurons = net.excluded_neurons ∧ net'.state = net.state := by
  rw [_create_connections_for_new_neuron]
  exact connect_fold_spec new_name now _ net.excluded_neurons
    (net.neurons.map Prod.fst) net hnew (fun e he => he)

theorem create_neuron_spec {net : Network} {ng : NeurogenesisState} {trigger : String}
    {ngState : List (String × ℚ)} {now : ℚ} {rng : RandomOracle}
    (hfresh : (baseNameFor trigger ++ "_" ++ toString ng.new_neurons.length) ∉
      net.neurons.map Prod.fst) :
    ∃ net', _create_neuron net ng trigger ngState now rng =
        some (net',
          { ng with new_neurons := ng.new_neurons ++
            [baseNameFor trigger ++ "_" ++ toString ng.new_neurons.length] },
          baseNameFor trigger ++ "_" ++ toString ng.new_neurons.length) ∧
      net'.neurons.map Prod.fst = net.neurons.map Prod.fst ++
        [baseNameFor trigger ++ "_" ++ toString ng.new_neurons.length] := by
  rw [_create_neuron]
  rw [add_neuron, if_neg (by
    intro hsome
    exact hfresh (alookup_isSome_iff.mp hsome))]
  simp only [Option.bind]
  have hnew1 : (baseNameFor trigger ++ "_" ++ toString ng.new_neurons.length) ∈
      ({ net with
          neurons := net.neurons ++ [(baseNameFor trigger ++ "_" ++ toString ng.new_neurons.length,
            Neuron.init (baseNameFor trigger ++ "_" ++ toString ng.new_neurons.length)
              (some (_find_position_for_new_neuron net trigger rng)) trigger [])],
          state := pyDictSet net.state
            (baseNameFor trigger ++ "_" ++ toString ng.new_neurons.length)
            (Value.num 50) } : Network).neurons.map Prod.fst := by
    simp
  rcases create_connections_spec hnew1 with ⟨net2, hcc, hneu2, _, _, _⟩
  rw [hcc]
  simp only [Option.bind]
  refine ⟨net2, rfl, ?_⟩
  rw [hneu2]
  simp

theorem string_append_ne_of_head {a b : String} (x y : String) {ca cb : Char}
    (hca : a.toList.head? = some ca) (hcb : b.toList.head? = some cb) (hne : ca ≠ cb) :
    a ++ x ≠ b ++ y := by
  intro hcontra
  have hdata : (a ++ x).data = (b ++ y).data := by rw [hcontra]
  rw [String.data_append, String.data_append] at hdata
  have hhead : (a.data ++ x.data).head? = (b.data ++ y.data).head? := by rw [hdata]
  cases ha : a.data with
  | nil => rw [show a.toList = a.data from rfl, ha] at hca; cases hca
  | cons c0 tla =>
    cases hb : b.data with
    | nil => rw [show b.toList = b.data from rfl, hb] at hcb; cases hcb
    | cons c1 tlb =>
      rw [ha, hb] at hhead
      simp only [List.cons_append, List.head?_cons, Option.some.injEq] at hhead
      rw [show a.toList = a.data from rfl, ha] at hca
      rw [show b.toList = b.data from rfl, hb] at hcb
      simp only [List.head?_cons, Option.some.injEq] at hca hcb
      exact hne (hca ▸ hcb ▸ hhead)

theorem trigger_scan_new_neurons (net : Network) (x : NeurogenesisState) :
    (trigger_scan net x).2.new_neurons = x.new_neurons := by
  rw [trigger_scan]
  simp only []
  split_ifs <;> rfl

theorem futNames_nil (n : Nat) : futNames [] n = [] := rfl

theorem enumFrom_map_shift (g : Nat → String → String) :
    ∀ (ts : List String) (i j : Nat),
      (List.enumFrom i ts).map (fun p => g (j + p.1) p.2) =
      (List.enumFrom (j + i) ts).map (fun p => g p.1 p.2) := by
  intro ts
  induction ts with
  | nil => intro i j; rfl
  | cons t tl ih =>
    intro i j
    simp only [List.enumFrom_cons, List.map_cons]
    congr 1
    rw [ih (i + 1) j, show j + (i + 1) = j + i + 1 from by omega]

theorem futNames_cons (t : String) (ts : List String) (n : Nat) :
    futNames (t :: ts) n = (baseNameFor t ++ "_" ++ toString n) :: futNames ts (n + 1) := by
  have h1 := enumFrom_map_shift (fun k s => baseNameFor s ++ "_" ++ toString k) ts 1 n
  have h2 := enumFrom_map_shift (fun k s => baseNameFor s ++ "_" ++ toString k) ts 0 (n + 1)
  simp only [Nat.add_zero] at h1 h2
  simp only [futNames, List.enum_cons, List.map_cons, Nat.add_zero]
  congr 1
  rw [h1, ← h2]
  rfl

theorem candidate_names_nodup (net : Network) (ng : NeurogenesisState)
    (ngState : List (String × ℚ)) : (candidate_names net ng ngState).Nodup := by
  have hns : ∀ i j : Nat, ("novel" ++ "_" ++ toString i) ≠ ("stress" ++ "_" ++ toString j) :=
    fun i j => string_append_ne_of_head (toString i) (toString j) rfl rfl (by decide)
  have hnr : ∀ i j : Nat, ("novel" ++ "_" ++ toString i) ≠ ("reward" ++ "_" ++ toString j) :=
    fun i j => string_append_ne_of_head (toString i) (toString j) rfl rfl (by decide)
  have hsr : ∀ i j : Nat, ("stress" ++ "_" ++ toString i) ≠ ("reward" ++ "_" ++ toString j) :=
    fun i j => string_append_ne_of_head (toString i) (toString j) rfl rfl (by decide)
  rw [candidate_names]
  generalize ng_after_signals net ng ngState = x
  generalize ng.new_neurons.length = n
  rw [trigger_scan]
  simp only []
  split_ifs <;>
    simp +decide [futNames_cons, futNames_nil, baseNameFor, alookup] <;>
    first
    | trivial
    | exact hns _ _
    | exact hnr _ _
    | exact hsr _ _
    | exact ⟨hns _ _, hnr _ _⟩
    | exact ⟨hns _ _, hsr _ _⟩
    | exact ⟨hnr _ _, hsr _ _⟩
    | exact ⟨⟨hns _ _, hnr _ _⟩, hsr _ _⟩

theorem trigger_fold_isSome (ngState : List (String × ℚ)) (now : ℚ) (rng : RandomOracle) :
    ∀ (ts : List String) (net : Network) (ng : NeurogenesisState) (created : Bool),
      (∀ nm ∈ futNames ts ng.new_neurons.length, nm ∉ net.neurons.map Prod.fst) →
      (futNames ts ng.new_neurons.length).Nodup →
      (optFold (fun (acc : Network × NeurogenesisState × Bool) trigger_type =>
          (_create_neuron acc.1 acc.2.1 trigger_type ngState now rng).bind
            (fun r => some (r.1, r.2.1, acc.2.2 || (if r.2.2 = "" then false else true))))
        (net, ng, created) ts).isSome = true := by
  intro ts
  induction ts with
  | nil =>
    intro net ng created _ _
    rw [optFold]
    rfl
  | cons t tl ih =>
    intro net ng created h1 h2
    rw [futNames_cons] at h1 h2
    have hfresh : (baseNameFor t ++ "_" ++ toString ng.new_neurons.length) ∉
        net.neurons.map Prod.fst := h1 _ (by simp)
    rcases create_neuron_spec hfresh with ⟨net1, hcn, hkeys⟩
    rw [optFold]
    simp only []
    rw [hcn]
    simp only [Option.bind]
    have hlen1 : ({ ng with new_neurons := ng.new_neurons ++
        [baseNameFor t ++ "_" ++ toString ng.new_neurons.length] } :
        NeurogenesisState).new_neurons.length = ng.new_neurons.length + 1 := by
      simp
    refine ih net1 _ _ ?_ ?_
    · intro nm hnm
      rw [hlen1] at hnm
      rw [hkeys]
      intro hmem
      rcases List.mem_append.mp hmem with hmem | hmem
      · exact (h1 nm (List.mem_cons_of_mem _ hnm)) hmem
      · rcases List.nodup_cons.mp h2 with ⟨hhead, _⟩
        rw [List.mem_singleton] at hmem
        exact hhead (hmem ▸ hnm)
    · rw [hlen1]
      exact (List.nodup_cons.mp h2).2

/-- C8 (counterexample to the claim as stated): `check_neurogenesis` raises
when a firing trigger generates a name the network already contains.  On a
network that already has a neuron named `novel_0`, a novelty trigger past
its cooldown calls `add_neuron("novel_0", ...)`, whose duplicate-name
`ValueError` propagates out of `check_neurogenesis` (modelled as `none`). -/
theorem c8_collision_counterexample :
    check_neurogenesis netC8cex ngC8 [] 1000 rngZero = none := by
  simp +decide [check_neurogenesis, ng_after_signals, trigger_scan, _create_neuron,
    _find_position_for_new_neuron, _create_connections_for_new_neuron, add_neuron,
    baseNameFor, relatedNeuronsFor, sortBy, insertSortedBy, cfgGet, alookup, netC8cex, ngC8,
    Config.default, rngZero, get_neuron_value, isinstance_int_float, pyFloat, Neuron.init,
    pyDictSet, optFold]
  norm_num
  try simp +decide [check_neurogenesis, ng_after_signals, trigger_scan, _create_neuron,
    _find_position_for_new_neuron, _create_connections_for_new_neuron, add_neuron,
    baseNameFor, relatedNeuronsFor, sortBy, insertSortedBy, cfgGet, alookup, netC8cex, ngC8,
    Config.default, rngZero, get_neuron_value, isinstance_int_float, pyFloat, Neuron.init,
    pyDictSet, optFold]
  try norm_num

/-- C8 (amended): `check_neurogenesis` completes and returns a boolean for
every network, neurogenesis state, input state dictionary, time and random
oracle — with absent config keys falling back to the fixed defaults built
into every `cfgGet` call — provided none of the names it would generate
(`{base}_{n}` for the firing triggers) is already a neuron of the network;
when such a collision occurs, `add_neuron`'s duplicate-name error propagates
(see the counterexample). -/
theorem c8_check_neurogenesis_total (net : Network) (ng : NeurogenesisState)
    (ngState : List (String × ℚ)) (now : ℚ) (rng : RandomOracle)
    (h : ∀ nm ∈ candidate_names net ng ngState, nm ∉ net.neurons.map Prod.fst) :
    (check_neurogenesis net ng ngState now rng).isSome = true := by
  rw [check_neurogenesis]
  simp only []
  by_cases hcd : now - (ng_after_signals net ng ngState).last_neuron_time ≤
    cfgGet net.config.neurogenesis "cooldown" 300
  · rw [if_pos hcd]
    rfl
  · rw [if_neg hcd]
    have hlen : (trigger_scan net (ng_after_signals net ng ngState)).2.new_neurons =
        ng.new_neurons := by
      rw [trigger_scan_new_neurons]
      rfl
    have h1 : ∀ nm ∈ futNames (trigger_scan net (ng_after_signals net ng ngState)).1
        (trigger_scan net (ng_after_signals net ng ngState)).2.new_neurons.length,
        nm ∉ net.neurons.map Prod.fst := by
      rw [hlen]
      exact h
    have h2 : (futNames (trigger_scan net (ng_after_signals net ng ngState)).1
        (trigger_scan net (ng_after_signals net ng ngState)).2.new_neurons.length).Nodup := by
      rw [hlen]
      exact candidate_names_nodup net ng ngState
    rcases Option.isSome_iff_exists.mp
      (trigger_fold_isSome ngState now rng _ net _ false h1 h2) with ⟨res, hres⟩
    rw [hres]
    simp only [Option.bind]
    split <;> rfl

/-- Witness for C8's amended theorem: a network whose single neuron
`curiosity` uses none of the reserved generated names, counters far above
threshold, past the cooldown: the call completes (and creates `novel_0`). -/
theorem c8_check_neurogenesis_total_witness :
    (check_neurogenesis netC8w ngC8 [] 1000 rngZero).isSome = true :=
  c8_check_neurogenesis_total netC8w ngC8 [] 1000 rngZero
    (by
      simp +decide [candidate_names, futNames, ng_after_signals, trigger_scan, baseNameFor,
        cfgGet, alookup, netC8w, ngC8, Config.default]
      try norm_num
      all_goals decide)

/-! ## Claim C5: save/load round trip -/

theorem pySplit_no_sep {sep : Char} {b : List Char} (h : sep ∉ b) : pySplit sep b = [b] := by
  induction b with
  | nil => rfl
  | cons c tl ih =>
    have hc : ¬c = sep := fun hh => h (hh ▸ List.mem_cons_self c tl)
    rw [pySplit]
    simp only [ih (fun hm => h (List.mem_cons_of_mem c hm)), if_neg hc]

theorem pySplit_sep_append {sep : Char} {a : List Char} (b : List Char) (ha : sep ∉ a) :
    pySplit sep (a ++ sep :: b) = a :: pySplit sep b := by
  induction a with
  | nil =>
    rw [List.nil_append, pySplit]
    simp
  | cons c tl ih =>
    have hc : ¬c = sep := fun hh => ha (hh ▸ List.mem_cons_self c tl)
    rw [List.cons_append, pySplit]
    simp only [ih (fun hm => ha (List.mem_cons_of_mem c hm)), if_neg hc]

theorem string_mk_toList (s : String) : String.mk s.toList = s := by
  cases s
  rfl

theorem connect_success {net : Network} {s t : String} {w now : ℚ}
    (hs : s ∈ net.neurons.map Prod.fst) (ht : t ∈ net.neurons.map Prod.fst)
    (hfresh : alookup (s, t) net.connections = none) :
    connect net s t w false now =
      some { net with connections :=
        net.connections ++ [((s, t), Connection.init s t w false now)] } := by
  rw [connect]
  rw [if_neg (by
    rw [Option.isNone_iff_eq_none]
    exact fun hn => (alookup_eq_none_iff.mp hn) hs)]
  rw [if_neg (by
    rw [Option.isNone_iff_eq_none]
    exact fun hn => (alookup_eq_none_iff.mp hn) ht)]
  rw [pyDictSet_of_not_mem _ hfresh]
  rfl

theorem alookup_append_self {α β : Type} [DecidableEq α] {k : α} {v : β}
    {d : List (α × β)} (h : alookup k d = none) : alookup k (d ++ [(k, v)]) = some v := by
  rw [alookup_append_right h, alookup, if_pos rfl]

theorem restore_creation_time_append {conns : List ((String × String) × Connection)}
    {k : String × String} {c : Connection} (tt : ℚ)
    (hfresh : alookup k conns = none) :
    restore_creation_time (conns ++ [(k, c)]) k tt =
      conns ++ [(k, { c with creation_time := tt })] := by
  rw [restore_creation_time, List.map_append]
  congr 1
  · have : ∀ p ∈ conns, (if p.1 = k then (p.1, { p.2 with creation_time := tt }) else p) = p := by
      intro p hp
      rw [if_neg]
      intro hk
      exact (alookup_eq_none_iff.mp hfresh) (hk ▸ List.mem_map_of_mem Prod.fst hp)
    rw [List.map_congr_left this]
    simp
  · simp

theorem load_connection_entry {net : Network} {s t : String} {w ct now : ℚ}
    (hs : s ∈ net.neurons.map Prod.fst) (ht : t ∈ net.neurons.map Prod.fst)
    (hsu : '_' ∉ s.toList) (htu : '_' ∉ t.toList)
    (hfresh : alookup (s, t) net.connections = none) :
    load_connection now net (s.toList ++ '_' :: t.toList, ⟨w, ct⟩) =
      some { net with connections := net.connections ++
        [((s, t), { Connection.init s t w false now with creation_time := ct })] } := by
  rw [load_connection]
  simp only [pySplit_sep_append t.toList hsu, pySplit_no_sep htu, string_mk_toList]
  rw [connect_success hs ht hfresh]
  simp only []
  rw [if_pos (by rw [alookup_append_self hfresh]; rfl)]
  rw [restore_creation_time_append _ hfresh]

theorem load_neurons_fold (l : List (String × NeuronData)) :
    ∀ net : Network, ((net.neurons.map Prod.fst) ++ l.map Prod.fst).Nodup →
    ∃ net', optFold (fun net p =>
        add_neuron net p.1 (Value.num 0) (some p.2.position) p.2.type p.2.attributes)
        net l = some net' ∧
      net'.neurons = net.neurons ++ l.map
        (fun p => (p.1, Neuron.init p.1 (some p.2.position) p.2.type p.2.attributes)) ∧
      net'.connections = net.connections ∧ net'.config = net.config ∧
      net'.creation_time = net.creation_time ∧
      net'.last_update_time = net.last_update_time ∧
      net'.update_count = net.update_count := by
  induction l with
  | nil =>
    intro net _
    exact ⟨net, rfl, by simp, rfl, rfl, rfl, rfl, rfl⟩
  | cons p tl ih =>
    intro net hnod
    have hfree : alookup p.1 net.neurons = none := by
      rw [alookup_eq_none_iff]
      rcases List.nodup_append.mp hnod with ⟨_, _, hdisj⟩
      exact fun hmem => hdisj hmem (by simp)
    rw [optFold, add_neuron, if_neg (by rw [Option.isSome_iff_ne_none]; simp [hfree])]
    set net1 : Network := { net with
      neurons := net.neurons ++ [(p.1, Neuron.init p.1 (some p.2.position) p.2.type p.2.attributes)],
      state := pyDictSet net.state p.1 (Value.num 0) } with hnet1
    have hnod1 : ((net1.neurons.map Prod.fst) ++ tl.map Prod.fst).Nodup := by
      rw [hnet1]
      simp only [List.map_append, List.map_cons, List.map_nil]
      rw [List.append_assoc]
      simpa using hnod
    rcases ih net1 hnod1 with ⟨net', hfold, hneu, hconn, hcfg, hct, hlu, huc⟩
    refine ⟨net', hfold, ?_, hconn, hcfg, hct, hlu, huc⟩
    rw [hneu, hnet1]
    simp

theorem load_connections_fold (now : ℚ) (l : List ((String × String) × Connection)) :
    ∀ net : Network,
      (∀ p ∈ l, p.1.1 ∈ net.neurons.map Prod.fst ∧ p.1.2 ∈ net.neurons.map Prod.fst ∧
        '_' ∉ p.1.1.toList ∧ '_' ∉ p.1.2.toList) →
      ((net.connections.map Prod.fst) ++ l.map Prod.fst).Nodup →
      ∃ net', optFold (load_connection now) net
          (l.map (fun p => (p.1.1.toList ++ '_' :: p.1.2.toList,
            { weight := p.2.weight, creation_time := p.2.creation_time }))) = some net' ∧
        net'.connections = net.connections ++ l.map
          (fun p => (p.1, { Connection.init p.1.1 p.1.2 p.2.weight false now with
            creation_time := p.2.creation_time })) ∧
        net'.neurons = net.neurons ∧ net'.config = net.config ∧
        net'.creation_time = net.creation_time ∧
        net'.last_update_time = net.last_update_time ∧
        net'.update_count = net.update_count := by
  induction l with
  | nil =>
    intro net _ _
    exact ⟨net, rfl, by simp, rfl, rfl, rfl, rfl, rfl⟩
  | cons p tl ih =>
    intro net hend hnod
    have hfresh : alookup p.1 net.connections = none := by
      rw [alookup_eq_none_iff]
      rcases List.nodup_append.mp hnod with ⟨_, _, hdisj⟩
      exact fun hmem => hdisj hmem (by simp)
    rcases hend p (by simp) with ⟨hs, ht, hsu, htu⟩
    rw [List.map_cons, optFold]
    rw [load_connection_entry hs ht hsu htu hfresh]
    set net1 : Network := { net with connections := net.connections ++
      [(p.1, { Connection.init p.1.1 p.1.2 p.2.weight false now with
        creation_time := p.2.creation_time })] } with hnet1
    have hend1 : ∀ q ∈ tl, q.1.1 ∈ net1.neurons.map Prod.fst ∧
        q.1.2 ∈ net1.neurons.map Prod.fst ∧ '_' ∉ q.1.1.toList ∧ '_' ∉ q.1.2.toList := by
      intro q hq
      exact hend q (List.mem_cons_of_mem p hq)
    have hnod1 : ((net1.connections.map Prod.fst) ++ tl.map Prod.fst).Nodup := by
      rw [hnet1]
      simp only [List.map_append, List.map_cons, List.map_nil]
      rw [List.append_assoc]
      simpa using hnod
    rcases ih net1 hend1 hnod1 with ⟨net', hfold, hconn, hneu, hcfg, hct, hlu, huc⟩
    refine ⟨net', hfold, ?_, hneu, hcfg, hct, hlu, huc⟩
    rw [hconn, hnet1]
    simp

/-- C5 (counterexample to the claim as stated): the saved connection key is
the literal string `{src}_{tgt}`, so a network whose neuron `a_b` (a name
containing an underscore) is connected to `c` saves the key `a_b_c`;
`load` splits it on every underscore into three parts, the two-variable
unpacking raises, and the whole load fails (`none`) — the round trip does
not reproduce the network. -/
theorem c5_round_trip_counterexample :
    Network.load (Network.save netC5cex) 0 = none := by decide

/-- C5 (amended): `save` followed by `load` reproduces an equivalent network
— same neuron names with the same positions, types and attributes, same
`(source, target)` connections with the same weights, same state mapping,
and the same hebbian/neurogenesis config — provided (as the key-ambiguity
caveat forces) that no connected neuron name contains an underscore, the
stored maps have unique keys, connection endpoints exist, and stored weights
already satisfy the clamp invariant (claim C2), so that re-clamping on load
is the identity. -/
theorem c5_round_trip (net : Network) (now : ℚ)
    (hnod : (net.neurons.map Prod.fst).Nodup)
    (hcnod : (net.connections.map Prod.fst).Nodup)
    (hok : ∀ p ∈ net.connections,
      p.1.1 ∈ net.neurons.map Prod.fst ∧ p.1.2 ∈ net.neurons.map Prod.fst ∧
      '_' ∉ p.1.1.toList ∧ '_' ∉ p.1.2.toList ∧
      -1 ≤ p.2.weight ∧ p.2.weight ≤ 1) :
    ∃ net', Network.load (Network.save net) now = some net' ∧
      neuron_summary net' = neuron_summary net ∧
      connection_summary net' = connection_summary net ∧
      net'.state = net.state ∧
      net'.config.hebbian = net.config.hebbian ∧
      net'.config.neurogenesis = net.config.neurogenesis := by
  rw [Network.load]
  simp only [Network.save]
  set cfg : Config := { hebbian := net.config.hebbian, neurogenesis := net.config.neurogenesis, combined := Config.default.combined } with hcfgdef
  set net0 : Network := { Network.init cfg now with creation_time := net.creation_time, last_update_time := net.last_update_time, update_count := net.update_count } with hnet0
  have hnod0 : ((net0.neurons.map Prod.fst) ++ (net.neurons.map (fun p => (p.1, ({ position := p.2.position, type := p.2.type, attributes := p.2.attributes } : NeuronData)))).map Prod.fst).Nodup := by
    rw [hnet0]
    show (([] : List String) ++ _).Nodup
    rw [List.nil_append, List.map_map]
    exact hnod
  rcases load_neurons_fold _ net0 hnod0 with ⟨net1, hfold1, hneu1, hconn1, hcfg1, hct1, hlu1, huc1⟩
  rw [hfold1]
  simp only [Option.bind]
  have hkeys1 : net1.neurons.map Prod.fst = net.neurons.map Prod.fst := by
    rw [hneu1, hnet0]
    show (([] : List (String × Neuron)) ++ _).map Prod.fst = _
    rw [List.nil_append, List.map_map, List.map_map]
    rfl
  have hend : ∀ p ∈ net.connections, p.1.1 ∈ net1.neurons.map Prod.fst ∧
      p.1.2 ∈ net1.neurons.map Prod.fst ∧ '_' ∉ p.1.1.toList ∧ '_' ∉ p.1.2.toList := by
    intro p hp
    rcases hok p hp with ⟨h1, h2, h3, h4, _, _⟩
    rw [hkeys1]
    exact ⟨h1, h2, h3, h4⟩
  have hnod1 : ((net1.connections.map Prod.fst) ++ (net.connections.map Prod.fst)).Nodup := by
    rw [hconn1, hnet0]
    show (([] : List (String × String)) ++ _).Nodup
    rw [List.nil_append]
    exact hcnod
  rcases load_connections_fold now net.connections net1 hend hnod1 with
    ⟨net2, hfold2, hconn2, hneu2, hcfg2, _, _, _⟩
  rw [hfold2]
  simp only [Option.bind]
  refine ⟨_, rfl, ?_, ?_, rfl, ?_, ?_⟩
  · show net2.neurons.map _ = _
    rw [hneu2, hneu1, hnet0]
    show (([] : List (String × Neuron)) ++ _).map _ = _
    rw [List.nil_append, List.map_map, List.map_map]
    rfl
  · show net2.connections.map _ = _
    rw [hconn2, hconn1, hnet0]
    show (([] : List ((String × String) × Connection)) ++ _).map _ = _
    rw [List.nil_append, List.map_map]
    apply List.map_congr_left
    intro p hp
    rcases hok p hp with ⟨_, _, _, _, hw1, hw2⟩
    show (p.1, clampWeight p.2.weight) = (p.1, p.2.weight)
    rw [clampWeight_eq_self hw1 hw2]
  · show net2.config.hebbian = net.config.hebbian
    rw [hcfg2, hcfg1, hnet0]
    rfl
  · show net2.config.neurogenesis = net.config.neurogenesis
    rw [hcfg2, hcfg1, hnet0]
    rfl

/-- Witness for C5's amended round trip at a concrete two-neuron,
two-connection network with no underscores in names. -/
theorem c5_round_trip_witness :
    ∃ net', Network.load (Network.save netC5w) 0 = some net' ∧
      neuron_summary net' = neuron_summary netC5w ∧
      connection_summary net' = connection_summary netC5w ∧
      net'.state = netC5w.state ∧
      net'.config.hebbian = netC5w.config.hebbian ∧
      net'.config.neurogenesis = netC5w.config.neurogenesis :=
  c5_round_trip netC5w 0 (by decide) (by decide)
    (by
      simp +decide [netC5w, Connection.init, Connection.set_weight, clampWeight,
        pyMin, pyMax, Neuron.init]
      norm_num)

end NNLib
